import Mathlib

/-!
Verification development for the nexus-ai backend (LLM orchestration subsystem).

Each section shallowly embeds one source module and proves the spec claims
about it:
* `SafeMath`  — `backend/app/services/agent_service.py`, class
  `SafeMathEvaluator` and `safe_math_eval`.
* `Chunker`   — `backend/app/services/rag_service.py`, `RAGService._chunk_text`.
* `ContextAsm`— `backend/app/services/rag_service.py`,
  `RAGService.get_context_for_query`.
* `Indexing`  — `backend/app/services/rag_service.py`,
  `RAGService.index_document` together with the SQLAlchemy `Result`
  consumption semantics it relies on.
* `Router`    — `backend/app/services/model_router.py`, `ModelRouter`.
* `Agent`     — `backend/app/services/agent_service.py`,
  `AgentService.run_agent` and `_extract_tool_calls`.

Python machine integers are arbitrary precision, so `Int`/`Nat` model them
exactly.  Python floats are modelled by exact fractions of integers (see
`SafeMath.PyFloat`); every concrete input appearing in a theorem below
stays at points where IEEE-754 double arithmetic is exact, and operations
whose Python result the exact model cannot mirror return a distinguished
`floatBoundary` error instead of a junk value.
-/

namespace SafeMath

/-- A Python float, modelled as an exact fraction `num / den`.  All
operations below keep `den` positive and use only integer arithmetic (no
gcd normalization), so fractions are not kept reduced; every predicate the
evaluator consults (zero test, order, integrality of an exponent) is
representation-independent.  `toQ` gives the represented rational value.
Every concrete input appearing in a theorem below stays at points where
IEEE-754 double arithmetic is exact (so the exact-fraction model and the
float semantics agree), and operations whose Python result would be
inexact in the model return a distinguished `floatBoundary` error instead
of a junk value. -/
structure PyFloat where
  num : Int
  den : Int
  deriving Repr, DecidableEq

namespace PyFloat

def ofInt (n : Int) : PyFloat := ⟨n, 1⟩

def toQ (a : PyFloat) : ℚ := (a.num : ℚ) / (a.den : ℚ)

def isZero (a : PyFloat) : Bool := a.num == 0

def neg (a : PyFloat) : PyFloat := ⟨-a.num, a.den⟩

def add (a b : PyFloat) : PyFloat :=
  ⟨a.num * b.den + b.num * a.den, a.den * b.den⟩

def sub (a b : PyFloat) : PyFloat :=
  ⟨a.num * b.den - b.num * a.den, a.den * b.den⟩

def mul (a b : PyFloat) : PyFloat := ⟨a.num * b.num, a.den * b.den⟩

/-- Exact division; the sign moves to the numerator so `den` stays
positive.  Callers test for a zero divisor first. -/
def div (a b : PyFloat) : PyFloat :=
  if b.num < 0 then ⟨-(a.num * b.den), a.den * (-b.num)⟩
  else ⟨a.num * b.den, a.den * b.num⟩

/-- Strict order by cross-multiplication (`den`s positive). -/
def lt (a b : PyFloat) : Bool := a.num * b.den < b.num * a.den

/-- `math.floor` of the represented value. -/
def floor (a : PyFloat) : Int := Int.fdiv a.num a.den

def powNat (a : PyFloat) : Nat → PyFloat
  | 0 => ⟨1, 1⟩
  | n + 1 => mul a (powNat a n)

/-- `some e` when the represented value is the integer `e`. -/
def intExponent? (a : PyFloat) : Option Int :=
  if a.num % a.den == 0 then some (a.num / a.den) else none

def absVal (a : PyFloat) : PyFloat := ⟨(a.num.natAbs : Int), a.den⟩

end PyFloat

/-- Python values that `SafeMathEvaluator` can produce or consume.
`bool` is kept separate because Python's `bool` is a subclass of `int`:
`isinstance(True, int)` holds, yet the value printed/returned is `True`. -/
inductive PyVal where
  | int (n : Int)
  | float (f : PyFloat)
  | bool (b : Bool)
  deriving Repr, DecidableEq

/-- Constants as they appear in `ast.Constant.value` nodes. -/
inductive PyConst where
  | int (n : Int)
  | float (f : PyFloat)
  | bool (b : Bool)
  | str (s : String)
  | none
  deriving Repr, DecidableEq

/-- `ast.Num` payload (legacy, Python ≤ 3.7 parse output). -/
inductive PyNum where
  | int (n : Int)
  | float (f : PyFloat)
  deriving Repr, DecidableEq

/-- Binary operator nodes.  `OPERATORS` in the source maps exactly
`Add, Sub, Mult, Div, FloorDiv, Mod, Pow` (plus the unary ones); any other
`ast` operator class misses the dict and raises.  `unsupported` stands for
such an operator node, carrying the Python class name for the message. -/
inductive BOp where
  | add | sub | mult | div | floorDiv | mod | pow
  | unsupported (className : String)
  deriving Repr, DecidableEq

/-- Unary operator nodes: `USub`, `UAdd` are in `OPERATORS`; anything else
(`Not`, `Invert`) misses the dict. -/
inductive UOp where
  | usub | uadd
  | unsupported (className : String)
  deriving Repr, DecidableEq

/-- Python expression AST as produced by `ast.parse(expression, mode='eval')`,
restricted to the node shapes the evaluator inspects.  Any node type without
a dedicated `visit_…` method is represented by the catch-all `other`
constructor carrying the node class name (the evaluator's `generic_visit`
only uses the class name, for its error message).  `call` keeps the keyword
arguments (`node.keywords`) because `ast.Call` carries them even though
`visit_Call` never touches them. -/
inductive PyExpr where
  | constant (c : PyConst)
  | num (n : PyNum)
  | binOp (op : BOp) (left right : PyExpr)
  | unaryOp (op : UOp) (operand : PyExpr)
  | call (func : PyExpr) (args : List PyExpr)
      (keywords : List (Option String × PyExpr))
  | name (id : String)
  | attribute (value : PyExpr) (attr : String)
  | other (className : String)
  deriving Repr

/-- Exception classes raised during evaluation.  `floatBoundary` is not a
Python exception: it marks points where the exact-fraction float model
cannot represent the IEEE result (no claim below ever reaches it). -/
inductive PyErr where
  | valueError (msg : String)
  | zeroDivisionError (msg : String)
  | typeError (msg : String)
  | floatBoundary (msg : String)
  deriving Repr, DecidableEq

/-- Message text of an exception, as `str(e)` renders it. -/
def PyErr.msg : PyErr → String
  | .valueError m => m
  | .zeroDivisionError m => m
  | .typeError m => m
  | .floatBoundary m => m

/-- `True`/`False` participate in arithmetic as `1`/`0` (bool ⊂ int). -/
def PyVal.isIntish : PyVal → Bool
  | .int _ => true
  | .bool _ => true
  | .float _ => false

def PyVal.asInt : PyVal → Int
  | .int n => n
  | .bool b => if b then 1 else 0
  | .float _ => 0

def PyVal.asF : PyVal → PyFloat
  | .int n => PyFloat.ofInt n
  | .bool b => PyFloat.ofInt (if b then 1 else 0)
  | .float f => f

/-- Exact `n`-th root of a natural number, if one exists. -/
def natRoot (m n : Nat) : Option Nat :=
  (List.range (m + 2)).find? (fun r => r ^ n == m)

/-- Exact root of a nonnegative fraction (componentwise), if one exists. -/
def floatRoot (a : PyFloat) (n : Nat) : Option PyFloat := do
  let x ← natRoot a.num.toNat n
  let y ← natRoot a.den.toNat n
  pure ⟨(x : Int), (y : Int)⟩

/-- Python `a ** b` (`operator.pow` on two scalars).  Int/int with a
nonnegative exponent stays int; otherwise the result is a float, modelled
exactly where possible.  A fractional exponent `p/q` takes the `q`-th root
of the `p`-th power, which equals Python's value wherever that value is
exactly representable. -/
def pyPow (a b : PyVal) : Except PyErr PyVal :=
  if a.isIntish && b.isIntish then
    if 0 ≤ b.asInt then .ok (.int (a.asInt ^ b.asInt.toNat))
    else if a.asInt = 0 then
      .error (.zeroDivisionError "0.0 cannot be raised to a negative power")
    else .ok (.float (PyFloat.div ⟨1, 1⟩
      (PyFloat.powNat (PyFloat.ofInt a.asInt) b.asInt.natAbs)))
  else
    match (PyVal.asF b).intExponent? with
    | some e =>
        if (PyVal.asF a).isZero ∧ e < 0 then
          .error (.zeroDivisionError "0.0 cannot be raised to a negative power")
        else if 0 ≤ e then .ok (.float ((PyVal.asF a).powNat e.toNat))
        else .ok (.float (PyFloat.div ⟨1, 1⟩
          ((PyVal.asF a).powNat e.natAbs)))
    | Option.none =>
        if (PyVal.asF a).lt ⟨0, 1⟩ then
          .error (.floatBoundary "complex result of fractional power")
        else
          match floatRoot ((PyVal.asF a).powNat (PyVal.asF b).num.natAbs)
              (PyVal.asF b).den.toNat with
          | some root =>
              .ok (.float (if (PyVal.asF b).num < 0 then
                PyFloat.div ⟨1, 1⟩ root else root))
          | Option.none => .error (.floatBoundary "inexact fractional power")

/-- `OPERATORS[type(node.op)]` applied to two operands, with Python's
numeric semantics (`/` is true division and always yields a float, `//`
floors, `%` follows the divisor's sign). -/
def applyBinOp (op : BOp) (a b : PyVal) : Except PyErr PyVal :=
  match op with
  | .add =>
      if a.isIntish && b.isIntish then .ok (.int (a.asInt + b.asInt))
      else .ok (.float (PyFloat.add a.asF b.asF))
  | .sub =>
      if a.isIntish && b.isIntish then .ok (.int (a.asInt - b.asInt))
      else .ok (.float (PyFloat.sub a.asF b.asF))
  | .mult =>
      if a.isIntish && b.isIntish then .ok (.int (a.asInt * b.asInt))
      else .ok (.float (PyFloat.mul a.asF b.asF))
  | .div =>
      if (PyVal.asF b).isZero then
        if a.isIntish && b.isIntish then
          .error (.zeroDivisionError "division by zero")
        else .error (.zeroDivisionError "float division by zero")
      else .ok (.float (PyFloat.div a.asF b.asF))
  | .floorDiv =>
      if a.isIntish && b.isIntish then
        if b.asInt = 0 then
          .error (.zeroDivisionError "integer division or modulo by zero")
        else .ok (.int (Int.fdiv a.asInt b.asInt))
      else
        if (PyVal.asF b).isZero then
          .error (.zeroDivisionError "float floor division by zero")
        else .ok (.float (PyFloat.ofInt (PyFloat.floor (PyFloat.div a.asF b.asF))))
  | .mod =>
      if a.isIntish && b.isIntish then
        if b.asInt = 0 then
          .error (.zeroDivisionError "integer division or modulo by zero")
        else .ok (.int (Int.fmod a.asInt b.asInt))
      else
        if (PyVal.asF b).isZero then
          .error (.zeroDivisionError "float modulo")
        else .ok (.float (PyFloat.sub a.asF
          (PyFloat.mul b.asF
            (PyFloat.ofInt (PyFloat.floor (PyFloat.div a.asF b.asF))))))
  | .pow => pyPow a b
  | .unsupported nm =>
      .error (.valueError ("Unsupported operator: " ++ nm))

/-- `OPERATORS[type(node.op)]` for unary nodes (`operator.neg`,
`operator.pos`); note `+True == 1` and `-True == -1` (ints). -/
def applyUnaryOp (op : UOp) (a : PyVal) : Except PyErr PyVal :=
  match op with
  | .usub =>
      if a.isIntish then .ok (.int (-a.asInt))
      else .ok (.float (PyFloat.neg a.asF))
  | .uadd =>
      if a.isIntish then .ok (.int a.asInt) else .ok (.float a.asF)
  | .unsupported nm =>
      .error (.valueError ("Unsupported unary operator: " ++ nm))

/-- Keys of the `FUNCTIONS` allow-list dict. -/
def FUNCTIONS : List String := ["abs", "round", "min", "max", "pow", "sqrt"]

/-- Banker's rounding (round half to even) of a fraction, Python's `round`
on a scalar: `f + r/den` with `0 ≤ r < den` rounds down below the half,
up above it, and to the even neighbour at exactly the half. -/
def roundHalfEven (a : PyFloat) : Int :=
  if 2 * (a.num - PyFloat.floor a * a.den) < a.den then PyFloat.floor a
  else if 2 * (a.num - PyFloat.floor a * a.den) > a.den then PyFloat.floor a + 1
  else if PyFloat.floor a % 2 = 0 then PyFloat.floor a else PyFloat.floor a + 1

/-- Numeric comparison across int/bool/float, as Python compares them. -/
def pyLt (a b : PyVal) : Bool := PyFloat.lt a.asF b.asF

/-- `self.FUNCTIONS[func_name](*args)`: the bodies of the six allow-listed
callables.  Arity errors are the `TypeError`s CPython would raise; paths
where the exact-fraction model cannot mirror IEEE exactly return
`floatBoundary` (no claim exercises them). -/
def applyFunction (fn : String) (args : List PyVal) : Except PyErr PyVal :=
  match fn, args with
  | "abs", [v] =>
      if v.isIntish then .ok (.int (v.asInt.natAbs : Int))
      else .ok (.float (PyFloat.absVal v.asF))
  | "abs", _ => .error (.typeError "abs() takes exactly one argument")
  | "round", [v] =>
      if v.isIntish then .ok (.int v.asInt)
      else .ok (.int (roundHalfEven v.asF))
  | "round", [v, nd] =>
      if nd.isIntish then
        if v.isIntish then
          if 0 ≤ nd.asInt then .ok (.int v.asInt)
          else .ok (.int (roundHalfEven ⟨v.asInt, (10 : Int) ^ nd.asInt.natAbs⟩ *
            (10 : Int) ^ nd.asInt.natAbs))
        else
          .error (.floatBoundary "round(float, ndigits) at inexact point")
      else .error (.typeError "ndigits must be an integer")
  | "round", _ => .error (.typeError "round() takes at most 2 arguments")
  | "min", [] => .error (.typeError "min expected at least 1 argument, got 0")
  | "min", [_] => .error (.typeError "object is not iterable")
  | "min", v :: rest =>
      .ok (rest.foldl (fun best x => if pyLt x best then x else best) v)
  | "max", [] => .error (.typeError "max expected at least 1 argument, got 0")
  | "max", [_] => .error (.typeError "object is not iterable")
  | "max", v :: rest =>
      .ok (rest.foldl (fun best x => if pyLt best x then x else best) v)
  | "pow", [a, b] => pyPow a b
  | "pow", [a, b, c] =>
      if a.isIntish && b.isIntish && c.isIntish then
        if c.asInt = 0 then
          .error (.valueError "pow() 3rd argument cannot be 0")
        else if b.asInt < 0 then
          .error (.floatBoundary "modular inverse not modelled")
        else .ok (.int (Int.fmod (a.asInt ^ b.asInt.toNat) c.asInt))
      else .error (.typeError "pow() 3rd argument not allowed for floats")
  | "pow", _ => .error (.typeError "pow() arity")
  | "sqrt", [x] => pyPow x (.float ⟨1, 2⟩)
  | "sqrt", _ => .error (.typeError "sqrt() takes exactly one argument")
  | _, _ => .error (.valueError "Unsupported function call")

mutual

/-- `SafeMathEvaluator.visit` on an expression node.  Dispatch mirrors
`ast.NodeVisitor`: a node class with a `visit_…` method goes there, every
other class lands in `generic_visit`, which raises. -/
def eval : PyExpr → Except PyErr PyVal
  | .constant c =>
      -- visit_Constant: isinstance(node.value, (int, float)) — a bool IS an
      -- int in Python, so bool constants pass the check and are returned.
      match c with
      | .int n => .ok (.int n)
      | .float f => .ok (.float f)
      | .bool b => .ok (.bool b)
      | .str _ => .error (.valueError "Unsupported constant type: <class 'str'>")
      | .none =>
          .error (.valueError "Unsupported constant type: <class 'NoneType'>")
  | .num n =>
      -- visit_Num (legacy): returns node.n with no check.
      match n with
      | .int i => .ok (.int i)
      | .float f => .ok (.float f)
  | .binOp op l r => do
      let lv ← eval l
      let rv ← eval r
      applyBinOp op lv rv
  | .unaryOp op e => do
      let v ← eval e
      applyUnaryOp op v
  | .call f args _keywords =>
      -- visit_Call: positional args are visited; node.keywords is never
      -- read, so keyword-argument subtrees are neither checked nor evaluated.
      match f with
      | .name id =>
          if id ∈ FUNCTIONS then do
            let vs ← evalArgs args
            applyFunction id vs
          else .error (.valueError "Unsupported function call")
      | _ => .error (.valueError "Unsupported function call")
  | .name _ => .error (.valueError "Unsupported expression type: Name")
  | .attribute _ _ =>
      .error (.valueError "Unsupported expression type: Attribute")
  | .other className =>
      .error (.valueError ("Unsupported expression type: " ++ className))

/-- `[self.visit(arg) for arg in node.args]` — left to right, first
exception aborts. -/
def evalArgs : List PyExpr → Except PyErr (List PyVal)
  | [] => .ok []
  | a :: rest => do
      let v ← eval a
      let vs ← evalArgs rest
      pure (v :: vs)

end

/-- `safe_math_eval`: parse (not modelled — theorems start from the parsed
AST), visit, and wrap any exception in
`ValueError(f"Invalid expression: {e}")`. -/
def safe_math_eval (e : PyExpr) : Except PyErr PyVal :=
  match eval e with
  | .ok v => .ok v
  | .error err => .error (.valueError ("Invalid expression: " ++ err.msg))

/-- Whether a binary operator node type is a key of `OPERATORS`. -/
def bopAllowed : BOp → Bool
  | .unsupported _ => false
  | _ => true

/-- Whether a unary operator node type is a key of `OPERATORS`. -/
def uopAllowed : UOp → Bool
  | .unsupported _ => false
  | _ => true

/-- A constant the evaluator's `isinstance(node.value, (int, float))` check
accepts (bools included, being ints). -/
def numericConst : PyConst → Bool
  | .int _ => true
  | .float _ => true
  | .bool _ => true
  | .str _ => false
  | .none => false

mutual

/-- Every node the evaluator actually VISITS is allow-listed: numeric
constants, supported unary/binary operators, and calls of allow-listed bare
names whose positional arguments are again in this set.  Keyword-argument
subtrees are not constrained, because `visit_Call` never visits
`node.keywords`. -/
def visitedAllowed : PyExpr → Bool
  | .constant c => numericConst c
  | .num _ => true
  | .binOp op l r => bopAllowed op && visitedAllowed l && visitedAllowed r
  | .unaryOp op e => uopAllowed op && visitedAllowed e
  | .call (.name id) args _ =>
      decide (id ∈ FUNCTIONS) && visitedAllowedList args
  | .call _ _ _ => false
  | .name _ => false
  | .attribute _ _ => false
  | .other _ => false

def visitedAllowedList : List PyExpr → Bool
  | [] => true
  | e :: rest => visitedAllowed e && visitedAllowedList rest

end

mutual

/-- The claim's notion of a bad AST: it contains, anywhere (keyword
arguments included), a node other than a numeric literal, a unary `+`/`-`,
a binary `+ - * / // % **`, or a call whose function is a bare allow-listed
name. -/
def containsDisallowed : PyExpr → Bool
  | .constant c => !numericConst c
  | .num _ => false
  | .binOp op l r =>
      !bopAllowed op || containsDisallowed l || containsDisallowed r
  | .unaryOp op e => !uopAllowed op || containsDisallowed e
  | .call (.name id) args kws =>
      !(decide (id ∈ FUNCTIONS)) || containsDisallowedList args ||
        containsDisallowedKw kws
  | .call _ _ _ => true
  | .name _ => true
  | .attribute _ _ => true
  | .other _ => true

def containsDisallowedList : List PyExpr → Bool
  | [] => false
  | e :: rest => containsDisallowed e || containsDisallowedList rest

def containsDisallowedKw : List (Option String × PyExpr) → Bool
  | [] => false
  | kw :: rest => containsDisallowed kw.2 || containsDisallowedKw rest

end

/-- Parsed AST of `"abs(-3, x=__import__('os'))"`: an allow-listed call
carrying a keyword argument whose value is a call to `__import__`. -/
def kwSmuggleExpr : PyExpr :=
  .call (.name "abs") [.unaryOp .usub (.constant (.int 3))]
    [(some "x", .call (.name "__import__") [.constant (.str "os")] [])]

/-- Parsed AST of `"2 + 3 * 4"`. -/
def exprArith : PyExpr :=
  .binOp .add (.constant (.int 2))
    (.binOp .mult (.constant (.int 3)) (.constant (.int 4)))

/-- Parsed AST of `"sqrt(16)"`. -/
def exprSqrt : PyExpr := .call (.name "sqrt") [.constant (.int 16)] []

/-- Parsed AST of `"__import__('os')"`. -/
def exprImport : PyExpr :=
  .call (.name "__import__") [.constant (.str "os")] []

/-- Parsed AST of `"1/0"`. -/
def exprDivZero : PyExpr :=
  .binOp .div (.constant (.int 1)) (.constant (.int 0))

/-- Parsed AST of `"True"`. -/
def exprTrue : PyExpr := .constant (.bool true)

/-- Parsed AST of `"True + True"`. -/
def exprTruePlusTrue : PyExpr :=
  .binOp .add (.constant (.bool true)) (.constant (.bool true))

end SafeMath

namespace Chunker

/-!
Embedding of `RAGService._chunk_text` (rag_service.py, lines 53–93).
A Python `str` is a sequence of code points, modelled as `List Char`; the
loop variables `start`/`end` are Python ints and can in principle go
negative (`start = end - overlap`), so they are modelled as `Int`, and the
slicing/`rfind` helpers implement Python's negative-index normalization.
The `while` loop has no a-priori bound, so it is modelled with explicit
fuel: `none` means the loop has not finished within the given fuel — a
run that returns `none` for EVERY fuel never terminates.
-/

/-- Normalize a Python slice index against a string of length `len`:
negative indices count from the end (clamped at 0), positive ones are
clamped at `len`. -/
def sliceIdx (len : Nat) (i : Int) : Nat :=
  if i < 0 then ((len : Int) + i).toNat else min i.toNat len

/-- Python `s[a:b]`. -/
def pySlice (s : List Char) (a b : Int) : List Char :=
  (s.take (sliceIdx s.length b)).drop (sliceIdx s.length a)

/-- The ASCII characters `str.strip()` removes (the Unicode-only spaces
cannot occur in any input considered here). -/
def isPySpace (c : Char) : Bool :=
  c = ' ' || c = '\t' || c = '\n' || c = '\r' || c = '\x0b' || c = '\x0c'

/-- Python `s.strip()`. -/
def pyStrip (s : List Char) : List Char :=
  ((s.dropWhile isPySpace).reverse.dropWhile isPySpace).reverse

/-- Does `sub` occur in `s` at position `i`? -/
def matchAt (s sub : List Char) (i : Nat) : Bool :=
  (s.drop i).take sub.length == sub

/-- Candidate positions for `s.rfind(sub, a, b)`: all `i` with `a' ≤ i`,
`i + |sub| ≤ b'` (normalized bounds) at which `sub` occurs, ascending. -/
def rfindHits (s sub : List Char) (a b : Int) : List Nat :=
  (List.range (s.length + 1)).filter
    (fun i => decide (sliceIdx s.length a ≤ i) &&
      decide (i + sub.length ≤ sliceIdx s.length b) && matchAt s sub i)

/-- Python `s.rfind(sub, a, b)`: the largest hit, else `-1`. -/
def pyRfind (s sub : List Char) (a b : Int) : Int :=
  match (rfindHits s sub a b).getLast? with
  | some i => (i : Int)
  | none => -1

/-- The sentence-ending separators probed in order by the chunker. -/
def SENT_PUNCTS : List (List Char) :=
  [('.' :: [' ']), ('!' :: [' ']), ('?' :: [' ']),
   ('.' :: ['\n']), ('!' :: ['\n']), ('?' :: ['\n'])]

/-- The `for punct in [...]` search: first separator found past the window
midpoint wins (`end = sent_break + len(punct)`), else the raw `end0`. -/
def sentenceAdjust (text : List Char) (chunk_size : Nat) (start end0 : Int) :
    List (List Char) → Int
  | [] => end0
  | p :: rest =>
      if pyRfind text p start end0 > start + ((chunk_size / 2 : Nat) : Int) then
        pyRfind text p start end0 + p.length
      else sentenceAdjust text chunk_size start end0 rest

/-- The boundary-rewind body guarded by `if end < text_len`: prefer a
paragraph break (`\n\n`) past the window midpoint, else a sentence break
past the midpoint, else keep the raw window end. -/
def adjustEnd (text : List Char) (chunk_size : Nat) (start end0 : Int) : Int :=
  if pyRfind text ('\n' :: ['\n']) start end0 >
      start + ((chunk_size / 2 : Nat) : Int) then
    pyRfind text ('\n' :: ['\n']) start end0 + 2
  else sentenceAdjust text chunk_size start end0 SENT_PUNCTS

/-- One recorded chunk: `(chunk, start, min(end, text_len))`. -/
structure Chunk where
  text : List Char
  startPos : Int
  endPos : Int
  deriving Repr, DecidableEq

/-- The effective window end for the window starting at `start`: the raw
`end = start + chunk_size` is rewound at a boundary only when it falls
strictly inside the text (`if end < text_len`). -/
def windowEnd (text : List Char) (chunk_size : Nat) (start : Int) : Int :=
  if start + (chunk_size : Int) < (text.length : Int) then
    adjustEnd text chunk_size start (start + (chunk_size : Int))
  else start + (chunk_size : Int)

/-- `chunk = text[start:end].strip(); if chunk: chunks.append((chunk, start,
min(end, text_len)))`. -/
def pushChunk (text : List Char) (acc : List Chunk) (start endB : Int) :
    List Chunk :=
  if (pyStrip (pySlice text start endB)).isEmpty then acc
  else acc ++ [⟨pyStrip (pySlice text start endB), start,
    min endB (text.length : Int)⟩]

/-- The `while start < text_len` loop of `_chunk_text`, with fuel. -/
def chunkLoop (text : List Char) (chunk_size overlap : Nat) :
    Nat → Int → List Chunk → Option (List Chunk)
  | 0, _, _ => none
  | fuel + 1, start, acc =>
      if start < (text.length : Int) then
        chunkLoop text chunk_size overlap fuel
          (windowEnd text chunk_size start - (overlap : Int))
          (pushChunk text acc start (windowEnd text chunk_size start))
      else some acc

/-- `_chunk_text` with explicit (already-defaulted) `chunk_size`/`overlap`. -/
def chunkTextFuel (fuel : Nat) (text : List Char) (size overlap : Nat) :
    Option (List Chunk) :=
  chunkLoop text size overlap fuel 0 []

/-- `settings.CHUNK_SIZE`. -/
def CHUNK_SIZE : Nat := 1000

/-- `settings.CHUNK_OVERLAP`. -/
def CHUNK_OVERLAP : Nat := 200

/-- `x or default` on an optional int argument: both `None` AND `0` fall
back to the default, `0` being falsy. -/
def orDefault (x : Option Nat) (d : Nat) : Nat :=
  match x with
  | Option.none => d
  | some v => if v = 0 then d else v

/-- `_chunk_text` as callable from outside: optional arguments resolved by
`chunk_size or settings.CHUNK_SIZE` / `overlap or settings.CHUNK_OVERLAP`. -/
def chunkText (fuel : Nat) (text : List Char) (size overlap : Option Nat) :
    Option (List Chunk) :=
  chunkTextFuel fuel text (orDefault size CHUNK_SIZE) (orDefault overlap CHUNK_OVERLAP)

/-- A text on which the loop never advances with `size = 10`,
`overlap = 8 < size`: the sentence rewind pins `end` to 8, so
`start = 8 - 8 = 0` forever. -/
def loopTextA : List Char := "abcdef. xxxxxxxxxx".toList

/-- A text on which `overlap = size = 5` loops instead of failing fast. -/
def loopTextB : List Char := "xxxxxxx".toList

/-- `"abcd" ++ six spaces ++ "efgh"`: with `size = 4`, `overlap = 1` the
all-whitespace window `[6,10)` is dropped, so positions 7 and 8 end up in
no recorded chunk. -/
def gapText : List Char := "abcd      efgh".toList

end Chunker

deriving instance DecidableEq for Except

namespace ContextAsm

/-!
Embedding of `RAGService.get_context_for_query` (rag_service.py, lines
241–273).  The `await self.search(query)` call is the boundary to the
external vector store: the ranked result list it returns (descending
relevance) is taken as the input of the pure part modelled here.  Only the
fields the function consumes (`title`, `chunk_content`) are carried;
`document_id`, `relevance_score` and `metadata` are not read by this code.
-/

structure SearchResult where
  title : String
  chunkContent : String
  deriving Repr, DecidableEq

/-- `f"[From: {result.title}]\n{result.chunk_content}"`. -/
def render (r : SearchResult) : String :=
  "[From: " ++ r.title ++ "]\n" ++ r.chunkContent

/-- `len(result.chunk_content) // 4` — the fixed 4-chars-per-token
heuristic. -/
def estTokens (r : SearchResult) : Nat := r.chunkContent.length / 4

def estSum (l : List SearchResult) : Nat := (l.map estTokens).sum

/-- `documents_used.add(title)`: the Python `set` is modelled as a
duplicate-free list in insertion order (set iteration order is not
specified by Python; no claim depends on it). -/
def addTitle (used : List String) (t : String) : List String :=
  if t ∈ used then used else used ++ [t]

/-- The `for result in results` accumulation loop with its budget `break`. -/
def ctxLoop : List SearchResult → List String → List String → Nat → Nat →
    List String × List String
  | [], parts, used, _, _ => (parts, used)
  | r :: rest, parts, used, cur, maxT =>
      if cur + estTokens r > maxT then (parts, used)
      else ctxLoop rest (parts ++ [render r]) (addTitle used r.title)
        (cur + estTokens r) maxT

/-- `get_context_for_query` on the list returned by `search` (`max_tokens`
defaults to 2000 at the Python call site). -/
def get_context_for_query (results : List SearchResult) (maxTokens : Nat) :
    String × List String :=
  if results.isEmpty then ("", [])
  else
    (String.intercalate "\n\n---\n\n" (ctxLoop results [] [] 0 maxTokens).1,
      (ctxLoop results [] [] 0 maxTokens).2)

/-- The spec's description of the same loop: greedily accept a prefix of
the ranked results, stopping before the running total of token estimates
would exceed the budget.  Stated separately (from the spec's words) to be
compared with the implementation above. -/
def acceptedResults : List SearchResult → Nat → Nat → List SearchResult
  | [], _, _ => []
  | r :: rest, cur, maxT =>
      if cur + estTokens r > maxT then []
      else r :: acceptedResults rest (cur + estTokens r) maxT

end ContextAsm

namespace Indexing

/-!
Embedding of `RAGService.index_document` (rag_service.py, lines 95–185),
raw-content path (`file_path=None`; the file branch delegates to the
filesystem and the external `document_processor`).  The SQLAlchemy
`Result` returned by `db.execute(select(...))` is modelled with its
documented consumption semantics: `scalar_one_or_none()` fully closes the
result after returning, and any further fetch — `scalar_one()` included —
raises `ResourceClosedError("This result object is closed.")`.
`_compute_hash` is SHA-256 hexdigest of the content; the dedup logic only
relies on it being a deterministic function of the content, so it is a
parameter `hash` of the model.  The ChromaDB `collection.add` call and the
`indexed_at` timestamp are external I/O, not modelled.
-/

structure Document where
  title : String
  file_path : Option String
  file_type : String
  size_bytes : Nat
  content_hash : String
  tags : List String
  source_url : Option String
  chunk_count : Nat
  deriving Repr, DecidableEq

inductive DBErr where
  | resourceClosed
  | multipleResults
  | noResult
  | valueError (msg : String)
  deriving Repr, DecidableEq

/-- A (buffered) SQLAlchemy `Result`. -/
structure SAResult (α : Type) where
  rows : List α
  closed : Bool

/-- `Result.scalar_one_or_none()`: at most one row or
`MultipleResultsFound`; the result object is closed afterwards. -/
def scalarOneOrNone {α : Type} (r : SAResult α) :
    Except DBErr (Option α × SAResult α) :=
  if r.closed then .error .resourceClosed
  else
    match r.rows with
    | [] => .ok (Option.none, ⟨r.rows, true⟩)
    | [x] => .ok (some x, ⟨r.rows, true⟩)
    | _ => .error .multipleResults

/-- `Result.scalar_one()`: exactly one row or an exception;
`ResourceClosedError` when the result object was already closed. -/
def scalarOne {α : Type} (r : SAResult α) : Except DBErr (α × SAResult α) :=
  if r.closed then .error .resourceClosed
  else
    match r.rows with
    | [x] => .ok (x, ⟨r.rows, true⟩)
    | [] => .error .noResult
    | _ => .error .multipleResults

/-- `await db.execute(select(Document).where(Document.content_hash ==
content_hash))`. -/
def executeSelectByHash (db : List Document) (h : String) :
    SAResult Document :=
  ⟨db.filter (fun d => d.content_hash == h), false⟩

/-- `doc.chunk_count = len(self._chunk_text(content))` with the default
configuration (`CHUNK_SIZE = 1000`, `CHUNK_OVERLAP = 200`); fuel
`|content| + 1` suffices for this configuration on the concrete inputs of
the theorems below (`overlap ≤ size/2`). -/
def chunkCount (content : String) : Nat :=
  match Chunker.chunkText (content.toList.length + 1) content.toList
    Option.none Option.none with
  | some cs => cs.length
  | Option.none => 0

/-- `index_document(db, content=..., title=..., tags=..., source_url=...)`:
dedup-then-create.  Returns the produced/found document together with the
new table contents; any raised exception is the `Except` error. -/
def index_document (hash : String → String) (db : List Document)
    (content : String) (title : Option String) (tags : List String)
    (source_url : Option String) : Except DBErr (Document × List Document) :=
  if content.isEmpty then
    .error (.valueError "Either file_path or content must be provided")
  else do
    let (found, existing) ← scalarOneOrNone
      (executeSelectByHash db (hash content))
    match found with
    | some _ =>
        -- "# Document already indexed, return existing"
        let (d, _) ← scalarOne existing
        pure (d, db)
    | Option.none =>
        let doc : Document :=
          ⟨title.getD "Untitled Document", Option.none, "text",
            content.utf8ByteSize, hash content, tags, source_url,
            chunkCount content⟩
        pure (doc, db ++ [doc])

end Indexing

namespace Router

/-!
Embedding of `ModelRouter._select_model`, `learn_from_override` and
`_update_preferences` (model_router.py, lines 137–200) together with the
`TaskType` enum (schemas.py, lines 15–25) and the `MODELS` table
(config.py).  The usage-log table is modelled as a list with the newest
record first (matching `order_by(created_at.desc())`); `learn_from_override`
prepends.  Python's `max(set(models), key=models.count)` iterates a `set`
in an unspecified order, so the model picks the FIRST listed model whose
count is maximal — any iteration order gives the same answer whenever the
maximal model is unique, which is the regime of the theorems below.
-/

/-- `TaskType` in its definition (= dict insertion) order. -/
inductive TaskType where
  | chat | question | document_analysis | rag_query | writing | creative
  | email | resume | code | summary
  deriving Repr, DecidableEq, Fintype

def TaskType.value : TaskType → String
  | .chat => "chat"
  | .question => "question"
  | .document_analysis => "document_analysis"
  | .rag_query => "rag_query"
  | .writing => "writing"
  | .creative => "creative"
  | .email => "email"
  | .resume => "resume"
  | .code => "code"
  | .summary => "summary"

/-- Iteration order of `TaskType` (scores-dict insertion order). -/
def taskOrder : List TaskType :=
  [.chat, .question, .document_analysis, .rag_query, .writing, .creative,
   .email, .resume, .code, .summary]

/-- `settings.MODELS` (config.py).  The final branch is unreachable: the
routing code only looks up the four configured tiers. -/
def MODELS : String → String
  | "fast" => "llama3.1:8b"
  | "balanced" => "mistral:7b"
  | "document" => "qwen2.5:14b"
  | "quality" => "llama3.1:70b-q4"
  | _ => ""

/-- The static `task_model_mapping` of `_select_model` (the `.get(task,
'fast')` default is unreachable — every `TaskType` is a key). -/
def taskTier (t : TaskType) (complexity : String) : String :=
  match t with
  | .chat => "fast"
  | .question => "fast"
  | .code => "fast"
  | .summary => "document"
  | .document_analysis => "document"
  | .rag_query => "document"
  | .writing => if complexity != "low" then "quality" else "balanced"
  | .creative => if complexity != "low" then "quality" else "balanced"
  | .email => "quality"
  | .resume => "quality"

/-- The mutable `self.user_preferences` dict. -/
structure RouterState where
  user_preferences : TaskType → Option String

/-- `_select_model(task_type, complexity)`. -/
def select_model (st : RouterState) (task : TaskType) (complexity : String) :
    String :=
  match st.user_preferences task with
  | some m => m
  | Option.none =>
      if complexity = "high" then MODELS "quality"
      else MODELS (taskTier task complexity)

/-- One `ModelUsageLog` row (the fields the router reads). -/
structure UsageLog where
  task_type : String
  auto_selected_model : String
  user_override_model : String
  was_override : Bool
  deriving Repr, DecidableEq

/-- `select(ModelUsageLog).where(task_type == t.value, was_override ==
True).order_by(created_at.desc()).limit(10)` on a newest-first list. -/
def recentOverrides (db : List UsageLog) (t : TaskType) : List UsageLog :=
  (db.filter (fun l => l.task_type == t.value && l.was_override)).take 10

/-- `override_models.count(m)`. -/
def countModel (models : List String) (m : String) : Nat :=
  (models.filter (fun m' => m' == m)).length

/-- `max(set(override_models), key=override_models.count)`: a model with
maximal count; the first such in list order stands in for Python's
unspecified set-iteration choice (equal to it whenever the maximum is
uniquely attained). -/
def mostCommon (models : List String) : Option String :=
  models.find? (fun m =>
    models.all (fun m' => countModel models m' ≤ countModel models m))

/-- `_update_preferences(db, task_type)`. -/
def update_preferences (st : RouterState) (db : List UsageLog)
    (t : TaskType) : RouterState :=
  if 3 ≤ (recentOverrides db t).length then
    match mostCommon ((recentOverrides db t).map
        (fun l => l.user_override_model)) with
    | some mc =>
        if 2 ≤ countModel ((recentOverrides db t).map
            (fun l => l.user_override_model)) mc then
          ⟨fun t' => if t' = t then some mc else st.user_preferences t'⟩
        else st
    | Option.none => st
  else st

/-- `learn_from_override`: append (prepend, newest first) the override
record, then re-derive the preference for that task. -/
def learn_from_override (st : RouterState) (db : List UsageLog)
    (t : TaskType) (auto user : String) : RouterState × List UsageLog :=
  (update_preferences st (⟨t.value, auto, user, true⟩ :: db) t,
    ⟨t.value, auto, user, true⟩ :: db)

/-- Three consecutive overrides of the same task to the same user model. -/
def learnThrice (st : RouterState) (db : List UsageLog) (t : TaskType)
    (auto user : String) : RouterState × List UsageLog :=
  learn_from_override
    (learn_from_override
      (learn_from_override st db t auto user).1
      (learn_from_override st db t auto user).2 t auto user).1
    (learn_from_override
      (learn_from_override st db t auto user).1
      (learn_from_override st db t auto user).2 t auto user).2 t auto user

/-- The empty router state (fresh `ModelRouter()`). -/
def freshState : RouterState := ⟨fun _ => Option.none⟩

/-- Counterexample run: seven overrides of the code task to model `"A"`,
then three consecutive overrides to model `"B"`. -/
def cexRun : RouterState × List UsageLog :=
  (["A", "A", "A", "A", "A", "A", "A", "B", "B", "B"]).foldl
    (fun acc user => learn_from_override acc.1 acc.2 .code "llama3.1:8b" user)
    (freshState, [])

end Router

namespace Classifier

/-!
Embedding of `ModelRouter.analyze_query`'s task-classification part
(model_router.py, lines 82–108) with `TASK_PATTERNS` (lines 20–64).
Python regexes are embedded as explicit alternative-lists of atoms: a
group alternation `(x|y)` inside a pattern is distributed into one
alternative per choice (semantics-preserving for `re.search`'s boolean
result), and each alternative is a sequence of atoms over literal
characters, the classes `\s` (whitespace) and `.` (any char except
newline — no DOTALL here), the quantifiers `*`, `+` on a class and `?` on
a literal, the word-boundary `\b`, and the anchors `^`/`$` (no MULTILINE:
`^` is position 0, `$` is the end or just before a final newline).
`re.search` returns whether any alternative matches at any position.
Queries are lower-cased first (`query.lower()`); all involved characters
are ASCII, where `Char.toLower` agrees with Python.
-/

/-- Character classes occurring in the patterns. -/
inductive CClass where
  | any
  | ws
  deriving Repr, DecidableEq

/-- Python `\w` (ASCII range; the queries considered are ASCII). -/
def isWordChar (c : Char) : Bool := c.isAlphanum || c == '_'

def pyWsChar (c : Char) : Bool :=
  c == ' ' || c == '\t' || c == '\n' || c == '\r' || c == '\x0b' || c == '\x0c'

def classMatch : CClass → Char → Bool
  | .any, c => c != '\n'
  | .ws, c => pyWsChar c

/-- One regex atom. -/
inductive RAtom where
  | lit (c : Char)
  | star (k : CClass)
  | plus (k : CClass)
  | opt (c : Char)
  | wb
  | bol
  | eol
  deriving Repr, DecidableEq

/-- Is the character at position `i` (if any) a word character? -/
def wordAt (s : List Char) (i : Nat) : Bool :=
  match s.drop i with
  | c :: _ => isWordChar c
  | [] => false

/-- Python `\b`: exactly one neighbouring side is a word character. -/
def atBoundary (s : List Char) (i : Nat) : Bool :=
  (if i = 0 then false else wordAt s (i - 1)) != wordAt s i

/-- Does the atom sequence match starting at position `i`?  Quantifiers
try every split of the maximal class run (match existence is what
`re.search`'s boolean use needs). -/
def matchAtoms (s : List Char) : List RAtom → Nat → Bool
  | [], _ => true
  | .lit c :: rest, i =>
      (match s.drop i with
       | c' :: _ => c' == c
       | [] => false) && matchAtoms s rest (i + 1)
  | .star k :: rest, i =>
      (List.range (((s.drop i).takeWhile (classMatch k)).length + 1)).any
        (fun j => matchAtoms s rest (i + j))
  | .plus k :: rest, i =>
      (List.range (((s.drop i).takeWhile (classMatch k)).length)).any
        (fun j => matchAtoms s rest (i + j + 1))
  | .opt c :: rest, i =>
      ((match s.drop i with
        | c' :: _ => c' == c
        | [] => false) && matchAtoms s rest (i + 1)) || matchAtoms s rest i
  | .wb :: rest, i => atBoundary s i && matchAtoms s rest i
  | .bol :: rest, i => i == 0 && matchAtoms s rest i
  | .eol :: rest, i =>
      (i == s.length ||
        (i + 1 == s.length &&
          (match s.drop i with
           | c :: _ => c == '\n'
           | [] => false))) && matchAtoms s rest i

/-- `re.search(pattern, s)` as a boolean, `pattern` given as its list of
distributed alternatives. -/
def reSearch (p : List (List RAtom)) (s : List Char) : Bool :=
  (List.range (s.length + 1)).any
    (fun i => p.any (fun alt => matchAtoms s alt i))

/-- A literal word as atoms. -/
def lits (w : String) : List RAtom := w.toList.map RAtom.lit

/-- `\bw\b`. -/
def bw (w : String) : List (List RAtom) :=
  [[RAtom.wb] ++ lits w ++ [RAtom.wb]]

/-- `\s+`. -/
def wsp : RAtom := RAtom.plus CClass.ws

/-- `.*`. -/
def dotstar : RAtom := RAtom.star CClass.any

/-- `TASK_PATTERNS[t]`, each Python regex annotated and translated in
order; `TaskType.CHAT` has no entry. -/
def TASK_PATTERNS : Router.TaskType → List (List (List RAtom))
  | .code =>
      [bw "code", bw "function", bw "class", bw "python",
       bw "javascript", bw "program", bw "debug",
       -- r'\bfix\s+this\b'
       [[RAtom.wb] ++ lits "fix" ++ [wsp] ++ lits "this" ++ [RAtom.wb]],
       bw "import", bw "def", bw "return",
       -- r'\bfor\s+loop\b'
       [[RAtom.wb] ++ lits "for" ++ [wsp] ++ lits "loop" ++ [RAtom.wb]],
       bw "syntax", bw "compile", bw "script"]
  | .email =>
      [bw "email", bw "reply",
       -- r'\brespond\s+to\b'
       [[RAtom.wb] ++ lits "respond" ++ [wsp] ++ lits "to" ++ [RAtom.wb]],
       bw "draft",
       -- r'\bsubject\s+line\b'
       [[RAtom.wb] ++ lits "subject" ++ [wsp] ++ lits "line" ++ [RAtom.wb]],
       -- r'\bprofessional\s+message\b'
       [[RAtom.wb] ++ lits "professional" ++ [wsp] ++ lits "message" ++
         [RAtom.wb]],
       -- r'\bdear\b.*letter'  (no trailing \b)
       [[RAtom.wb] ++ lits "dear" ++ [RAtom.wb, dotstar] ++ lits "letter"],
       -- r'\bthank\s+you\s+note\b'
       [[RAtom.wb] ++ lits "thank" ++ [wsp] ++ lits "you" ++ [wsp] ++
         lits "note" ++ [RAtom.wb]]]
  | .resume =>
      [bw "resume", bw "cv",
       -- r'\bcover\s+letter\b'
       [[RAtom.wb] ++ lits "cover" ++ [wsp] ++ lits "letter" ++ [RAtom.wb]],
       -- r'\bjob\s+application\b'
       [[RAtom.wb] ++ lits "job" ++ [wsp] ++ lits "application" ++ [RAtom.wb]],
       -- r'\bwork\s+experience\b'
       [[RAtom.wb] ++ lits "work" ++ [wsp] ++ lits "experience" ++ [RAtom.wb]],
       bw "qualifications", bw "hiring"]
  | .creative =>
      [bw "story", bw "poem", bw "creative", bw "imagine", bw "fiction",
       bw "character", bw "plot",
       -- r'\bwrite\s+a\b'
       [[RAtom.wb] ++ lits "write" ++ [wsp] ++ lits "a" ++ [RAtom.wb]],
       bw "narrative", bw "dialogue", bw "scene"]
  | .writing =>
      [bw "write", bw "compose", bw "article", bw "blog", bw "essay",
       bw "paragraph", bw "rewrite", bw "paraphrase",
       -- r'\bsummarize\b.*long'  (no trailing \b)
       [[RAtom.wb] ++ lits "summarize" ++ [RAtom.wb, dotstar] ++ lits "long"],
       bw "expand", bw "elaborate"]
  | .document_analysis =>
      [bw "document", bw "pdf", bw "file", bw "analyze", bw "review",
       bw "extract",
       -- r'\bfrom\s+the\b.*\b(document|file|pdf)\b'  (distributed)
       [[RAtom.wb] ++ lits "from" ++ [wsp] ++ lits "the" ++
          [RAtom.wb, dotstar, RAtom.wb] ++ lits "document" ++ [RAtom.wb],
        [RAtom.wb] ++ lits "from" ++ [wsp] ++ lits "the" ++
          [RAtom.wb, dotstar, RAtom.wb] ++ lits "file" ++ [RAtom.wb],
        [RAtom.wb] ++ lits "from" ++ [wsp] ++ lits "the" ++
          [RAtom.wb, dotstar, RAtom.wb] ++ lits "pdf" ++ [RAtom.wb]],
       -- r'\bwhat\s+does\s+(the|this)\b.*\bsay\b'  (distributed)
       [[RAtom.wb] ++ lits "what" ++ [wsp] ++ lits "does" ++ [wsp] ++
          lits "the" ++ [RAtom.wb, dotstar, RAtom.wb] ++ lits "say" ++
          [RAtom.wb],
        [RAtom.wb] ++ lits "what" ++ [wsp] ++ lits "does" ++ [wsp] ++
          lits "this" ++ [RAtom.wb, dotstar, RAtom.wb] ++ lits "say" ++
          [RAtom.wb]]]
  | .rag_query =>
      -- first pattern: r'\bmy\s+(documents?|files?|notes?)\b'  (distributed)
      [[[RAtom.wb] ++ lits "my" ++ [wsp] ++ lits "document" ++
          [RAtom.opt 's', RAtom.wb],
        [RAtom.wb] ++ lits "my" ++ [wsp] ++ lits "file" ++
          [RAtom.opt 's', RAtom.wb],
        [RAtom.wb] ++ lits "my" ++ [wsp] ++ lits "note" ++
          [RAtom.opt 's', RAtom.wb]],
       -- r'\bsearch\s+my\b'
       [[RAtom.wb] ++ lits "search" ++ [wsp] ++ lits "my" ++ [RAtom.wb]],
       -- r'\bfind\s+in\b'
       [[RAtom.wb] ++ lits "find" ++ [wsp] ++ lits "in" ++ [RAtom.wb]],
       -- r'\baccording\s+to\b'
       [[RAtom.wb] ++ lits "according" ++ [wsp] ++ lits "to" ++ [RAtom.wb]],
       -- r'\bwhat\s+do\s+i\s+have\b'
       [[RAtom.wb] ++ lits "what" ++ [wsp] ++ lits "do" ++ [wsp] ++
         lits "i" ++ [wsp] ++ lits "have" ++ [RAtom.wb]],
       -- r'\bin\s+my\s+(files?|documents?)\b'  (distributed)
       [[RAtom.wb] ++ lits "in" ++ [wsp] ++ lits "my" ++ [wsp] ++
          lits "file" ++ [RAtom.opt 's', RAtom.wb],
        [RAtom.wb] ++ lits "in" ++ [wsp] ++ lits "my" ++ [wsp] ++
          lits "document" ++ [RAtom.opt 's', RAtom.wb]]]
  | .summary =>
      [bw "summarize", bw "summary",
       -- r'\btl;?dr\b'
       [[RAtom.wb] ++ lits "tl" ++ [RAtom.opt ';'] ++ lits "dr" ++
         [RAtom.wb]],
       -- r'\bkey\s+points\b'
       [[RAtom.wb] ++ lits "key" ++ [wsp] ++ lits "points" ++ [RAtom.wb]],
       -- r'\bmain\s+ideas?\b'
       [[RAtom.wb] ++ lits "main" ++ [wsp] ++ lits "idea" ++
         [RAtom.opt 's', RAtom.wb]],
       bw "overview", bw "brief"]
  | .question =>
      -- first pattern: r'^(what|...|does)\b', one alternative per word
      [[[RAtom.bol] ++ lits "what" ++ [RAtom.wb],
        [RAtom.bol] ++ lits "who" ++ [RAtom.wb],
        [RAtom.bol] ++ lits "where" ++ [RAtom.wb],
        [RAtom.bol] ++ lits "when" ++ [RAtom.wb],
        [RAtom.bol] ++ lits "why" ++ [RAtom.wb],
        [RAtom.bol] ++ lits "how" ++ [RAtom.wb],
        [RAtom.bol] ++ lits "can" ++ [RAtom.wb],
        [RAtom.bol] ++ lits "could" ++ [RAtom.wb],
        [RAtom.bol] ++ lits "would" ++ [RAtom.wb],
        [RAtom.bol] ++ lits "should" ++ [RAtom.wb],
        [RAtom.bol] ++ lits "is" ++ [RAtom.wb],
        [RAtom.bol] ++ lits "are" ++ [RAtom.wb],
        [RAtom.bol] ++ lits "do" ++ [RAtom.wb],
        [RAtom.bol] ++ lits "does" ++ [RAtom.wb]],
       -- r'\?$'
       [[RAtom.lit '?', RAtom.eol]],
       bw "explain",
       -- r'\btell\s+me\b'
       [[RAtom.wb] ++ lits "tell" ++ [wsp] ++ lits "me" ++ [RAtom.wb]],
       -- r'\bwhat\s+is\b'
       [[RAtom.wb] ++ lits "what" ++ [wsp] ++ lits "is" ++ [RAtom.wb]]]
  | .chat => []

/-- `query.lower()` (ASCII agreement with Python's `str.lower`). -/
def lowerQ (query : String) : List Char := query.toList.map Char.toLower

/-- The per-task score: how many of the task's patterns `re.search` the
lower-cased query (each `if re.search(...)` adds exactly 1). -/
def score (q : List Char) (t : Router.TaskType) : Nat :=
  ((TASK_PATTERNS t).filter (fun p => reSearch p q)).length

/-- `max(scores.items(), key=lambda x: x[1])`: fold keeping the current
best, replacing it only on a STRICTLY greater score — Python's `max`
returns the first maximal item in iteration order. -/
def argmaxFirst (f : Router.TaskType → Nat) :
    List Router.TaskType → Router.TaskType → Router.TaskType
  | [], best => best
  | t :: rest, best => argmaxFirst f rest (if f t > f best then t else best)

/-- `best_task[0]`: the scores dict iterates in `TaskType` insertion
order, so the fold starts from `CHAT` and proceeds through the remaining
nine task types. -/
def bestTask (q : List Char) : Router.TaskType :=
  argmaxFirst (fun t => score q t)
    [.question, .document_analysis, .rag_query, .writing, .creative,
     .email, .resume, .code, .summary] .chat

/-- The task-label part of `analyze_query`: the argmax, defaulted to CHAT
when the best score is 0. -/
def classifyTask (query : String) : Router.TaskType :=
  if score (lowerQ query) (bestTask (lowerQ query)) = 0 then .chat
  else bestTask (lowerQ query)

end Classifier

namespace Agent

/-!
Embedding of `AgentService._extract_tool_calls` and `AgentService.run_agent`
(agent_service.py, lines 265-364).  The two I/O boundaries are abstracted
as function parameters: `oracle` stands for the streamed model reply to
the current message transcript (`ollama_service.chat_stream`, concatenated
into `full_response`; streaming granularity is collapsed into one
`content` event per iteration), and `toolExec` stands for the synthetic
user-turn content produced from one executed tool call (the f-string
around `json.dumps(await execute_tool(...))`).  Everything else --- the
regex scans, `json.loads`, the `"tool"`-key filter, and the
`while iteration < max_iterations` loop --- is modelled directly.
-/

/-- A JSON value; `num` keeps the numeric token as written, since the
agent code never reads a numeric value (it only looks up dict keys). -/
inductive Json where
  | obj (fields : List (String × Json))
  | arr (items : List Json)
  | str (s : String)
  | num (raw : String)
  | bool (b : Bool)
  | null

/-- Dict lookup, last binding wins (`json.loads` keeps the last duplicate
key); `None` on non-objects or missing keys. -/
def Json.get? : Json → String → Option Json
  | .obj fields, k => (fields.reverse.find? (fun f => f.1 == k)).map (fun f => f.2)
  | _, _ => Option.none

/-- The key-membership test applied to the parsed dicts. -/
def Json.hasKey (j : Json) (k : String) : Bool := (j.get? k).isSome

/-- `data.get(k, d)`. -/
def Json.getD (j : Json) (k : String) (d : Json) : Json := (j.get? k).getD d

/-- JSON structural whitespace. -/
def jsonWs (c : Char) : Bool := c == ' ' || c == '\t' || c == '\n' || c == '\r'

def skipWs (s : List Char) : List Char := s.dropWhile jsonWs

/-- Hex digit value. -/
def hexVal (c : Char) : Option Nat :=
  if '0' ≤ c ∧ c ≤ '9' then some (c.toNat - '0'.toNat)
  else if 'a' ≤ c ∧ c ≤ 'f' then some (c.toNat - 'a'.toNat + 10)
  else if 'A' ≤ c ∧ c ≤ 'F' then some (c.toNat - 'A'.toNat + 10)
  else Option.none

/-- JSON string body after the opening quote: standard escapes; a
backslash-u escape for non-surrogate code points (surrogate-pair
recombination, which no input below uses, is out of scope); raw control
characters are invalid. -/
def parseStrBody : List Char → List Char → Option (String × List Char)
  | acc, '"' :: rest => some (String.mk acc.reverse, rest)
  | acc, '\\' :: e :: rest =>
      (match e, rest with
       | '"', r => parseStrBody ('"' :: acc) r
       | '\\', r => parseStrBody ('\\' :: acc) r
       | '/', r => parseStrBody ('/' :: acc) r
       | 'b', r => parseStrBody ('\x08' :: acc) r
       | 'f', r => parseStrBody ('\x0c' :: acc) r
       | 'n', r => parseStrBody ('\n' :: acc) r
       | 'r', r => parseStrBody ('\r' :: acc) r
       | 't', r => parseStrBody ('\t' :: acc) r
       | 'u', h1 :: h2 :: h3 :: h4 :: r =>
           (match hexVal h1, hexVal h2, hexVal h3, hexVal h4 with
            | some a, some b, some c, some d =>
                if 0xD800 ≤ ((a * 16 + b) * 16 + c) * 16 + d ∧
                    ((a * 16 + b) * 16 + c) * 16 + d ≤ 0xDFFF then Option.none
                else parseStrBody
                  (Char.ofNat (((a * 16 + b) * 16 + c) * 16 + d) :: acc) r
            | _, _, _, _ => Option.none)
       | _, _ => Option.none)
  | acc, c :: rest =>
      if c.toNat < 0x20 then Option.none else parseStrBody (c :: acc) rest
  | _, [] => Option.none

def isDigit (c : Char) : Bool := '0' ≤ c && c ≤ '9'

/-- JSON number token (optional minus, integer part without a leading
zero, optional fraction, optional exponent), returned as its raw text. -/
def parseNum (s : List Char) : Option (Json × List Char) :=
  let (sign, s1) :=
    match s with
    | '-' :: r => (['-'], r)
    | _ => (([] : List Char), s)
  match s1 with
  | c :: _ =>
      if isDigit c then
        let intPart := s1.takeWhile isDigit
        let s2 := s1.drop intPart.length
        if intPart.length > 1 ∧ intPart.headD '0' = '0' then Option.none
        else
          let fr : Option (List Char) × List Char :=
            match s2 with
            | '.' :: r =>
                if (r.takeWhile isDigit).isEmpty then (Option.none, s2)
                else (some ('.' :: r.takeWhile isDigit),
                  r.drop (r.takeWhile isDigit).length)
            | _ => (Option.none, s2)
          match fr.1, fr.2 with
          | Option.none, '.' :: _ => Option.none
          | fp, s3 =>
              let ex : Option (List Char) × List Char :=
                match s3 with
                | e :: r =>
                    if e == 'e' ∨ e == 'E' then
                      match r with
                      | '+' :: rr =>
                          if (rr.takeWhile isDigit).isEmpty then
                            (Option.none, s3)
                          else (some (e :: '+' :: rr.takeWhile isDigit),
                            rr.drop (rr.takeWhile isDigit).length)
                      | '-' :: rr =>
                          if (rr.takeWhile isDigit).isEmpty then
                            (Option.none, s3)
                          else (some (e :: '-' :: rr.takeWhile isDigit),
                            rr.drop (rr.takeWhile isDigit).length)
                      | _ =>
                          if (r.takeWhile isDigit).isEmpty then
                            (Option.none, s3)
                          else (some (e :: r.takeWhile isDigit),
                            r.drop (r.takeWhile isDigit).length)
                    else (Option.none, s3)
                | [] => (Option.none, s3)
              some (.num (String.mk (sign ++ intPart ++ fp.getD [] ++
                ex.1.getD [])), ex.2)
      else Option.none
  | [] => Option.none

mutual

/-- `json.loads` value parser; the fuel strictly decreases on every
recursive call, and twice the input length plus two is always enough. -/
def parseValue : Nat → List Char → Option (Json × List Char)
  | 0, _ => Option.none
  | fuel + 1, s =>
      match skipWs s with
      | '{' :: rest => parseObjStart fuel rest
      | '[' :: rest => parseArrStart fuel rest
      | '"' :: rest =>
          (parseStrBody [] rest).map (fun p => (Json.str p.1, p.2))
      | 't' :: 'r' :: 'u' :: 'e' :: rest => some (.bool true, rest)
      | 'f' :: 'a' :: 'l' :: 's' :: 'e' :: rest => some (.bool false, rest)
      | 'n' :: 'u' :: 'l' :: 'l' :: rest => some (.null, rest)
      | s' => parseNum s'

def parseObjStart : Nat → List Char → Option (Json × List Char)
  | 0, _ => Option.none
  | fuel + 1, s =>
      match skipWs s with
      | '}' :: rest => some (.obj [], rest)
      | _ => parseMembers fuel s []

def parseMembers : Nat → List Char → List (String × Json) →
    Option (Json × List Char)
  | 0, _, _ => Option.none
  | fuel + 1, s, acc =>
      match skipWs s with
      | '"' :: rest =>
          (match parseStrBody [] rest with
           | some (key, r1) =>
               (match skipWs r1 with
                | ':' :: r2 =>
                    (match parseValue fuel r2 with
                     | some (v, r3) =>
                         (match skipWs r3 with
                          | ',' :: r4 => parseMembers fuel r4 (acc ++ [(key, v)])
                          | '}' :: r4 => some (.obj (acc ++ [(key, v)]), r4)
                          | _ => Option.none)
                     | Option.none => Option.none)
                | _ => Option.none)
           | Option.none => Option.none)
      | _ => Option.none

def parseArrStart : Nat → List Char → Option (Json × List Char)
  | 0, _ => Option.none
  | fuel + 1, s =>
      match skipWs s with
      | ']' :: rest => some (.arr [], rest)
      | _ => parseItems fuel s []

def parseItems : Nat → List Char → List Json → Option (Json × List Char)
  | 0, _, _ => Option.none
  | fuel + 1, s, acc =>
      match parseValue fuel s with
      | some (v, r1) =>
          (match skipWs r1 with
           | ',' :: r2 => parseItems fuel r2 (acc ++ [v])
           | ']' :: r2 => some (.arr (acc ++ [v]), r2)
           | _ => Option.none)
      | Option.none => Option.none

end

/-- `json.loads`: a single value, trailing whitespace only. -/
def jsonLoads (s : String) : Option Json :=
  match parseValue (2 * s.length + 2) s.toList with
  | some (v, rest) => if (skipWs rest).isEmpty then some v else Option.none
  | Option.none => Option.none

/-- Python backslash-s (ASCII relevant range, as in the classifier). -/
def pyWs (c : Char) : Bool :=
  c == ' ' || c == '\t' || c == '\n' || c == '\r' || c == '\x0b' || c == '\x0c'

/-- Does `w` occur literally at position `i`? -/
def litAt (s w : List Char) (i : Nat) : Bool :=
  (s.drop i).take w.length == w

/-- Position after a maximal whitespace run starting at `i`. -/
def skipWsFrom (s : List Char) (i : Nat) : Nat :=
  i + ((s.drop i).takeWhile pyWs).length

def charAt (s : List Char) (i : Nat) : Option Char :=
  match s.drop i with
  | c :: _ => some c
  | [] => Option.none

/-- A match of the fenced-block pattern (triple-backtick, `json`,
whitespace, a captured group of an open brace, one-or-more non-backtick
characters and a close brace, whitespace, closing triple-backtick)
starting at `i`: `some (captured group, match end)`.  After the mandatory
prefix, the whitespace-then-brace head is deterministic (a brace is not
whitespace); the greedy one-or-more class backtracks to the LAST position
`p` inside the maximal non-backtick run at which a close brace is followed
by whitespace and the closing fence. -/
def fencedMatchAt (s : List Char) (i : Nat) : Option (List Char × Nat) :=
  if litAt s ("```json".toList) i then
    if charAt s (skipWsFrom s (i + 7)) == some '{' then
      ((List.range (((s.drop (skipWsFrom s (i + 7) + 1)).takeWhile
          (fun c => c != '`')).length)).map
        (fun k => skipWsFrom s (i + 7) +
          ((s.drop (skipWsFrom s (i + 7) + 1)).takeWhile
            (fun c => c != '`')).length - k)).findSome? (fun p =>
        if charAt s p == some '}' ∧ skipWsFrom s (i + 7) + 2 ≤ p then
          if litAt s ("```".toList) (skipWsFrom s (p + 1)) then
            some ((s.drop (skipWsFrom s (i + 7))).take
              (p + 1 - skipWsFrom s (i + 7)), skipWsFrom s (p + 1) + 3)
          else Option.none
        else Option.none)
    else Option.none
  else Option.none

/-- A match of the inline pattern (open brace, the literal tool key,
whitespace, a quoted nonempty string, a comma, whitespace, the literal
parameters key, whitespace, a braced nonempty body, close brace) starting
at `i`: `some (matched text, match end)`.  Every quantified class here is
followed by a character outside the class, so greedy matching is
deterministic. -/
def inlineMatchAt (s : List Char) (i : Nat) : Option (List Char × Nat) :=
  if litAt s ("\x7b\"tool\":".toList) i then
    if charAt s (skipWsFrom s (i + 8)) == some '"' then
      inlineTail s i (skipWsFrom s (i + 8))
        (((s.drop (skipWsFrom s (i + 8) + 1)).takeWhile
          (fun c => c != '"')).length)
    else Option.none
  else Option.none
where
  /-- Continuation after the opening quote of the tool name at `j` with a
  maximal non-quote run of length `r1`. -/
  inlineTail (s : List Char) (i j r1 : Nat) : Option (List Char × Nat) :=
    if r1 = 0 then Option.none
    else if charAt s (j + 1 + r1) == some '"' ∧
        charAt s (j + 2 + r1) == some ',' then
      if litAt s ("\"parameters\":".toList) (skipWsFrom s (j + 3 + r1)) then
        inlineParams s i (skipWsFrom s (skipWsFrom s (j + 3 + r1) + 13))
      else Option.none
    else Option.none
  /-- Continuation at the parameters object opening position `n`. -/
  inlineParams (s : List Char) (i n : Nat) : Option (List Char × Nat) :=
    if charAt s n == some '{' then
      inlineClose s i n
        (((s.drop (n + 1)).takeWhile (fun c => c != '}')).length)
    else Option.none
  /-- Final double-close-brace check with run length `r2` after `n`. -/
  inlineClose (s : List Char) (i n r2 : Nat) : Option (List Char × Nat) :=
    if r2 = 0 then Option.none
    else if charAt s (n + 1 + r2) == some '}' ∧
        charAt s (n + 2 + r2) == some '}' then
      some ((s.drop i).take (n + 3 + r2 - i), n + 3 + r2)
    else Option.none

/-- `re.findall` driver: leftmost non-overlapping matches, resuming after
each match end (all matches here are nonempty, so the scan advances). -/
def findallFuel (matchAt : List Char → Nat → Option (List Char × Nat)) :
    Nat → List Char → Nat → List (List Char)
  | 0, _, _ => []
  | fuel + 1, s, i =>
      if s.length < i then []
      else
        match matchAt s i with
        | some (m, e) => m :: findallFuel matchAt fuel s (max e (i + 1))
        | Option.none => findallFuel matchAt fuel s (i + 1)

def findall (matchAt : List Char → Nat → Option (List Char × Nat))
    (s : List Char) : List (List Char) :=
  findallFuel matchAt (s.length + 2) s 0

/-- `_extract_tool_calls`: fenced `json` blocks first, then inline
matches; each candidate goes through `json.loads`, malformed candidates
are silently skipped (the decode error is caught and the loop continues),
and only dicts containing a `"tool"` key are kept. -/
def extract_tool_calls (text : List Char) : List Json :=
  (findall fencedMatchAt text).filterMap (fun m =>
    match jsonLoads (String.mk m) with
    | some j => if j.hasKey "tool" then some j else Option.none
    | Option.none => Option.none) ++
  (findall inlineMatchAt text).filterMap (fun m =>
    match jsonLoads (String.mk m) with
    | some j => if j.hasKey "tool" then some j else Option.none
    | Option.none => Option.none)

/-- One transcript message. -/
structure Msg where
  role : String
  content : String

/-- The events `run_agent` yields (streaming content collapsed to one
event per iteration, carrying the iteration number). -/
inductive AgentEvent where
  | content (text : String) (iteration : Nat)
  | toolCall (tool : Option Json) (parameters : Json)
  | toolResult (tool : Option Json) (result : String)
  | done (finalResponse : String)
  | maxIterations

/-- The two events produced per tool call, in execution order. -/
def toolEvents (toolExec : Option Json → Json → String) (calls : List Json) :
    List AgentEvent :=
  calls.foldr (fun tc acc =>
    .toolCall (tc.get? "tool") (tc.getD "parameters" (.obj [])) ::
      .toolResult (tc.get? "tool")
        (toolExec (tc.get? "tool") (tc.getD "parameters" (.obj []))) :: acc) []

/-- The synthetic user turns appended per tool result. -/
def toolMsgs (toolExec : Option Json → Json → String) (calls : List Json) :
    List Msg :=
  calls.map (fun tc =>
    ⟨"user", toolExec (tc.get? "tool") (tc.getD "parameters" (.obj []))⟩)

/-- The `while iteration < max_iterations` loop of `run_agent`. -/
def runAgentLoop (oracle : List Msg → String)
    (toolExec : Option Json → Json → String) (maxIterations : Nat)
    (iteration : Nat) (messages : List Msg) : List AgentEvent :=
  if iteration < maxIterations then
    if (extract_tool_calls (oracle messages).toList).isEmpty then
      [.content (oracle messages) (iteration + 1), .done (oracle messages)]
    else
      .content (oracle messages) (iteration + 1) ::
        (toolEvents toolExec (extract_tool_calls (oracle messages).toList) ++
          runAgentLoop oracle toolExec maxIterations (iteration + 1)
            (messages ++ ⟨"assistant", oracle messages⟩ ::
              toolMsgs toolExec (extract_tool_calls (oracle messages).toList)))
  else [.maxIterations]
  termination_by maxIterations - iteration

/-- `run_agent(message, max_iterations)`. -/
def run_agent (oracle : List Msg → String)
    (toolExec : Option Json → Json → String) (message : String)
    (maxIterations : Nat) : List AgentEvent :=
  runAgentLoop oracle toolExec maxIterations 0 [⟨"user", message⟩]

/-- Is an event the start-of-iteration content block? -/
def isContentEv : AgentEvent → Bool
  | .content _ _ => true
  | _ => false

/-- Number of iterations an event trace records. -/
def countIterations (evs : List AgentEvent) : Nat :=
  (evs.filter isContentEv).length

/-- A model response carrying one well-formed fenced tool-call block. -/
def toolResponse : String :=
  "```json\n\x7b\"tool\": \"calculator\", \"parameters\": \x7b\"expression\": \"1\"\x7d\x7d\n```"

end Agent

/-! ## Theorems -/

namespace Chunker

theorem pyRfind_spec (s sub : List Char) (a b : Int) :
    pyRfind s sub a b = -1 ∨
      (0 ≤ pyRfind s sub a b ∧
        ((sliceIdx s.length a : Int) ≤ pyRfind s sub a b ∧
          pyRfind s sub a b + sub.length ≤ (sliceIdx s.length b : Int))) := by
  rcases h : (rfindHits s sub a b).getLast? with _ | i
  · left
    unfold pyRfind
    rw [h]
  · right
    have hv : pyRfind s sub a b = (i : Int) := by
      unfold pyRfind
      rw [h]
    have hm := List.mem_of_mem_getLast? h
    rw [rfindHits, List.mem_filter] at hm
    obtain ⟨-, hp⟩ := hm
    simp only [Bool.and_eq_true, decide_eq_true_eq] at hp
    rw [hv]
    refine ⟨Int.ofNat_nonneg i, ?_, ?_⟩
    · exact_mod_cast hp.1.1
    · exact_mod_cast hp.1.2

theorem sliceIdx_le (len : Nat) (i : Int) (h : 0 ≤ i) :
    (sliceIdx len i : Int) ≤ i := by
  unfold sliceIdx
  rw [if_neg (by omega)]
  have : min i.toNat len ≤ i.toNat := Nat.min_le_left _ _
  omega

theorem sentenceAdjust_le (text : List Char) (size : Nat) (start end0 : Int)
    (hs : 0 ≤ start) (h0 : 0 ≤ end0) :
    ∀ ps, sentenceAdjust text size start end0 ps ≤ end0
  | [] => le_refl _
  | p :: rest => by
      unfold sentenceAdjust
      split
      · rcases pyRfind_spec text p start end0 with hn | ⟨-, -, hub⟩
        · omega
        · calc pyRfind text p start end0 + p.length
              ≤ (sliceIdx text.length end0 : Int) := hub
            _ ≤ end0 := sliceIdx_le _ _ h0
      · exact sentenceAdjust_le text size start end0 hs h0 rest

theorem sentenceAdjust_mid (text : List Char) (size : Nat) (start end0 : Int) :
    ∀ ps, start + ((size / 2 : Nat) : Int) <
        sentenceAdjust text size start end0 ps ∨
      sentenceAdjust text size start end0 ps = end0
  | [] => Or.inr rfl
  | p :: rest => by
      unfold sentenceAdjust
      split
      · left
        have : (0 : Int) ≤ p.length := Int.ofNat_nonneg _
        omega
      · exact sentenceAdjust_mid text size start end0 rest

theorem adjustEnd_le (text : List Char) (size : Nat) (start end0 : Int)
    (hs : 0 ≤ start) (h0 : 0 ≤ end0) : adjustEnd text size start end0 ≤ end0 := by
  unfold adjustEnd
  split
  · rcases pyRfind_spec text ('\n' :: ['\n']) start end0 with hn | ⟨-, -, hub⟩
    · omega
    · have h2 : ((('\n' :: ['\n'] : List Char)).length : Int) = 2 := rfl
      have := sliceIdx_le text.length end0 h0
      omega
  · exact sentenceAdjust_le text size start end0 hs h0 _

theorem adjustEnd_mid (text : List Char) (size : Nat) (start end0 : Int) :
    start + ((size / 2 : Nat) : Int) < adjustEnd text size start end0 ∨
      adjustEnd text size start end0 = end0 := by
  unfold adjustEnd
  split
  · left; omega
  · exact sentenceAdjust_mid text size start end0 _

theorem windowEnd_le (text : List Char) (size : Nat) (start : Int)
    (h0 : 0 ≤ start) : windowEnd text size start ≤ start + size := by
  unfold windowEnd
  split
  · exact adjustEnd_le text size start _ h0 (by omega)
  · exact le_refl _

theorem windowEnd_mid (text : List Char) (size : Nat) (start : Int)
    (hsize : 1 ≤ size) :
    start + ((size / 2 : Nat) : Int) < windowEnd text size start := by
  have hlt : ((size / 2 : Nat) : Int) < (size : Int) := by
    have : size / 2 < size := Nat.div_lt_self (by omega) (by omega)
    exact_mod_cast this
  unfold windowEnd
  split
  · rcases adjustEnd_mid text size start (start + (size : Int)) with h | h
    · exact h
    · omega
  · omega

theorem dropWhile_eq_self_of_none (p : Char → Bool) :
    ∀ (l : List Char), (∀ c ∈ l, p c = false) → l.dropWhile p = l
  | [], _ => rfl
  | c :: rest, h => by
      rw [List.dropWhile_cons, h c (List.mem_cons_self c rest)]
      simp

theorem pyStrip_of_noWS (s : List Char) (h : ∀ c ∈ s, isPySpace c = false) :
    pyStrip s = s := by
  unfold pyStrip
  rw [dropWhile_eq_self_of_none _ s h,
    dropWhile_eq_self_of_none _ s.reverse (fun c hc => h c (List.mem_reverse.mp hc)),
    List.reverse_reverse]

theorem mem_of_mem_pySlice (s : List Char) (a b : Int) (c : Char)
    (h : c ∈ pySlice s a b) : c ∈ s :=
  List.mem_of_mem_take (List.mem_of_mem_drop h)

theorem pySlice_ne_nil (s : List Char) (a b : Int)
    (h0 : 0 ≤ a) (hlt : a < (s.length : Int)) (hab : a < b) :
    pySlice s a b ≠ [] := by
  have hble : sliceIdx s.length b ≤ s.length := by
    unfold sliceIdx
    split <;> omega
  have hlen : (pySlice s a b).length =
      sliceIdx s.length b - sliceIdx s.length a := by
    unfold pySlice
    rw [List.length_drop, List.length_take]
    omega
  have ha : sliceIdx s.length a = a.toNat := by
    unfold sliceIdx
    rw [if_neg (by omega)]
    omega
  have hb : a.toNat < sliceIdx s.length b := by
    unfold sliceIdx
    rw [if_neg (by omega)]
    omega
  intro hnil
  rw [hnil] at hlen
  simp only [List.length_nil] at hlen
  omega

/-- Invariant preservation for the chunking loop under a well-behaved
configuration (`overlap ≤ size/2`) on whitespace-free text: the loop
terminates within the fuel, chunks are in-bounds, nonempty, strictly
ordered, adjacent ranges overlap by at most `overlap`, and every text
position is covered by a recorded chunk. -/
theorem chunkLoop_sound (text : List Char) (size overlap : Nat)
    (hsize : 1 ≤ size) (hov : overlap ≤ size / 2)
    (hws : ∀ c ∈ text, isPySpace c = false) :
    ∀ (fuel : Nat) (start : Int) (acc : List Chunk),
      0 ≤ start →
      ((text.length : Int) - start).toNat < fuel →
      (∀ c ∈ acc, 0 ≤ c.startPos ∧ c.startPos < c.endPos ∧
          c.endPos ≤ (text.length : Int) ∧ c.text ≠ []) →
      acc.Chain' (fun c c' => c.startPos < c'.startPos ∧
          c.endPos - (overlap : Int) ≤ c'.startPos) →
      (∀ c, acc.getLast? = some c →
          c.startPos < start ∧ c.endPos ≤ start + (overlap : Int)) →
      (∀ i : Nat, i < text.length → (i : Int) < start →
          ∃ c ∈ acc, c.startPos ≤ (i : Int) ∧ (i : Int) < c.endPos) →
      ∃ cs, chunkLoop text size overlap fuel start acc = some cs ∧
        (∀ c ∈ cs, 0 ≤ c.startPos ∧ c.startPos < c.endPos ∧
            c.endPos ≤ (text.length : Int) ∧ c.text ≠ []) ∧
        cs.Chain' (fun c c' => c.startPos < c'.startPos ∧
            c.endPos - (overlap : Int) ≤ c'.startPos) ∧
        (∀ i : Nat, i < text.length →
            ∃ c ∈ cs, c.startPos ≤ (i : Int) ∧ (i : Int) < c.endPos) := by
  intro fuel
  induction fuel with
  | zero => intro start acc _ hf _ _ _ _; omega
  | succ fuel ih =>
    intro start acc h0 hf hacc1 hacc2 hacc3 hacc4
    by_cases hlt : start < (text.length : Int)
    case neg =>
      refine ⟨acc, ?_, hacc1, hacc2, ?_⟩
      · unfold chunkLoop
        rw [if_neg hlt]
      · intro i hi
        exact hacc4 i hi (by omega)
    case pos =>
      have hovI : (overlap : Int) ≤ ((size / 2 : Nat) : Int) := by
        exact_mod_cast hov
      have hmid : start + ((size / 2 : Nat) : Int) < windowEnd text size start :=
        windowEnd_mid text size start hsize
      have hwle : windowEnd text size start ≤ start + size :=
        windowEnd_le text size start h0
      have hse : start < windowEnd text size start := by
        have : (0 : Int) ≤ ((size / 2 : Nat) : Int) := Int.ofNat_nonneg _
        omega
      have hns : start < windowEnd text size start - (overlap : Int) := by omega
      have hchunk : pyStrip (pySlice text start (windowEnd text size start)) =
          pySlice text start (windowEnd text size start) :=
        pyStrip_of_noWS _ (fun c hc => hws c (mem_of_mem_pySlice _ _ _ c hc))
      have hne : pySlice text start (windowEnd text size start) ≠ [] :=
        pySlice_ne_nil text start _ h0 hlt hse
      have hpush : pushChunk text acc start (windowEnd text size start) =
          acc ++ [⟨pySlice text start (windowEnd text size start), start,
            min (windowEnd text size start) (text.length : Int)⟩] := by
        unfold pushChunk
        rw [hchunk, if_neg (by simpa [List.isEmpty_iff] using hne)]
      have hstep : chunkLoop text size overlap (fuel + 1) start acc =
          chunkLoop text size overlap fuel
            (windowEnd text size start - (overlap : Int))
            (acc ++ [⟨pySlice text start (windowEnd text size start), start,
              min (windowEnd text size start) (text.length : Int)⟩]) := by
        conv_lhs => unfold chunkLoop
        rw [if_pos hlt, hpush]
      rw [hstep]
      apply ih
      · omega
      · omega
      · intro c hc
        rcases List.mem_append.mp hc with hc | hc
        · exact hacc1 c hc
        · rw [List.mem_singleton] at hc
          subst hc
          refine ⟨h0, ?_, ?_, hne⟩
          · show start < min (windowEnd text size start) (text.length : Int)
            omega
          · show min (windowEnd text size start) (text.length : Int) ≤ _
            omega
      · rw [List.chain'_append]
        refine ⟨hacc2, List.chain'_singleton _, ?_⟩
        intro x hx y hy
        simp only [List.head?_cons, Option.mem_def, Option.some.injEq] at hy
        subst hy
        have hlast := hacc3 x (Option.mem_def.mp hx)
        constructor
        · show x.startPos < start
          exact hlast.1
        · show x.endPos - (overlap : Int) ≤ start
          omega
      · intro c hc
        rw [List.getLast?_concat] at hc
        injection hc with hc
        subst hc
        constructor
        · show start < _
          exact hns
        · show min (windowEnd text size start) (text.length : Int) ≤ _
          omega
      · intro i hi hilt
        by_cases hio : (i : Int) < start
        · obtain ⟨c, hc, hcov⟩ := hacc4 i hi hio
          exact ⟨c, List.mem_append_left _ hc, hcov⟩
        · refine ⟨_, List.mem_append_right _ (List.mem_singleton_self _), ?_, ?_⟩
          · show start ≤ (i : Int)
            omega
          · show (i : Int) < min (windowEnd text size start) (text.length : Int)
            omega

end Chunker

namespace Chunker

theorem loopA_step (fuel : Nat) (acc : List Chunk) :
    chunkLoop loopTextA 10 8 (fuel + 1) 0 acc =
      chunkLoop loopTextA 10 8 fuel 0 (acc ++ [⟨"abcdef.".toList, 0, 8⟩]) := rfl

theorem loopA_none : ∀ (fuel : Nat) (acc : List Chunk),
    chunkLoop loopTextA 10 8 fuel 0 acc = Option.none
  | 0, _ => rfl
  | fuel + 1, acc => by
      rw [loopA_step]
      exact loopA_none fuel _

theorem loopB_step (fuel : Nat) (acc : List Chunk) :
    chunkLoop loopTextB 5 5 (fuel + 1) 0 acc =
      chunkLoop loopTextB 5 5 fuel 0 (acc ++ [⟨"xxxxx".toList, 0, 5⟩]) := rfl

theorem loopB_none : ∀ (fuel : Nat) (acc : List Chunk),
    chunkLoop loopTextB 5 5 fuel 0 acc = Option.none
  | 0, _ => rfl
  | fuel + 1, acc => by
      rw [loopB_step]
      exact loopB_none fuel _

/-- C2: refuted on the code; the code is the bug.  `_chunk_text` neither
guarantees termination for `overlap < size` nor fails fast for
`overlap ≥ size`.  (a) With `chunk_size = 10`, `overlap = 8 < 10`, on
`"abcdef. xxxxxxxxxx"` the sentence-boundary rewind pins `end` to 8, so
`start = end - overlap` stays 0 and the `while` loop never exits: the
fuel-indexed model returns `none` for EVERY fuel.  (b) With
`chunk_size = overlap = 5` on `"xxxxxxx"` there is no fail-fast error
path either: the call again loops forever instead of raising. -/
theorem chunk_text_no_failfast_loops_forever :
    (∀ fuel : Nat, chunkTextFuel fuel loopTextA 10 8 = Option.none) ∧
      (∀ fuel : Nat, chunkTextFuel fuel loopTextB 5 5 = Option.none) :=
  ⟨fun fuel => loopA_none fuel [], fun fuel => loopB_none fuel []⟩

/-- C9 counterexample: with `size = 4 > overlap = 1 ≥ 0` on
`"abcd" ++ "      " ++ "efgh"` the all-whitespace window `[6,10)` is
dropped (`if chunk:`), and position 7 of the text lies in no returned
chunk range — the union of chunk ranges does not cover the full character
range, refuting the claim as stated. -/
theorem chunk_coverage_counterexample :
    (1 : Nat) < 4 ∧
      chunkTextFuel (gapText.length + 1) gapText 4 1 =
        some [⟨"abcd".toList, 0, 4⟩, ⟨"d".toList, 3, 7⟩,
          ⟨"efg".toList, 9, 13⟩, ⟨"gh".toList, 12, 14⟩] ∧
      7 < gapText.length ∧
      ∀ c ∈ [(⟨"abcd".toList, 0, 4⟩ : Chunk), ⟨"d".toList, 3, 7⟩,
          ⟨"efg".toList, 9, 13⟩, ⟨"gh".toList, 12, 14⟩],
        ¬(c.startPos ≤ (7 : Int) ∧ (7 : Int) < c.endPos) := by
  refine ⟨by decide, by decide, by decide, by decide⟩

/-- C9 amended: for whitespace-free text and `overlap ≤ size / 2` the
chunker terminates within `|T| + 1` iterations and the returned chunks
have strictly increasing start offsets, adjacent ranges re-entering the
previous chunk only within the configured overlap window, all ranges
inside `[0, |T|]`, nonempty chunk text after trimming, and the union of
the ranges covers every character position of `T`.  (In general, a window
that is entirely whitespace is dropped, leaving its positions uncovered —
see the counterexample — and configurations with `overlap` close to `size`
need not terminate at all.) -/
theorem chunk_invariants_amended (text : List Char) (size overlap : Nat)
    (hsize : 1 ≤ size) (hov : overlap ≤ size / 2)
    (hws : ∀ c ∈ text, isPySpace c = false) :
    ∃ cs, chunkTextFuel (text.length + 1) text size overlap = some cs ∧
      (∀ c ∈ cs, 0 ≤ c.startPos ∧ c.startPos < c.endPos ∧
          c.endPos ≤ (text.length : Int) ∧ c.text ≠ []) ∧
      cs.Chain' (fun c c' => c.startPos < c'.startPos ∧
          c.endPos - (overlap : Int) ≤ c'.startPos) ∧
      (∀ i : Nat, i < text.length →
          ∃ c ∈ cs, c.startPos ≤ (i : Int) ∧ (i : Int) < c.endPos) := by
  have h := chunkLoop_sound text size overlap hsize hov hws
    (text.length + 1) 0 []
    (le_refl 0) (by omega)
    (by intro c hc; cases hc)
    List.chain'_nil
    (by intro c hc; cases hc)
    (by intro i _ hi; omega)
  exact h

/-- Witness for the amended C9 at `"abcdef"`, `size = 4`, `overlap = 2`. -/
theorem chunk_invariants_amended_witness :
    ∃ cs, chunkTextFuel ("abcdef".toList.length + 1) "abcdef".toList 4 2 = some cs ∧
      (∀ c ∈ cs, 0 ≤ c.startPos ∧ c.startPos < c.endPos ∧
          c.endPos ≤ ("abcdef".toList.length : Int) ∧ c.text ≠ []) ∧
      cs.Chain' (fun c c' => c.startPos < c'.startPos ∧
          c.endPos - (2 : Int) ≤ c'.startPos) ∧
      (∀ i : Nat, i < "abcdef".toList.length →
          ∃ c ∈ cs, c.startPos ≤ (i : Int) ∧ (i : Int) < c.endPos) :=
  chunk_invariants_amended "abcdef".toList 4 2 (by decide) (by decide)
    (by decide)

end Chunker

namespace SafeMath

theorem exceptBind_ok {α β : Type} {x : Except PyErr α} {f : α → Except PyErr β}
    {v : β} (h : (x >>= f) = .ok v) : ∃ a, x = .ok a ∧ f a = .ok v := by
  cases x with
  | error e => simp [Bind.bind, Except.bind] at h
  | ok a => exact ⟨a, rfl, by simpa [Bind.bind, Except.bind] using h⟩

mutual

theorem eval_ok_visitedAllowed :
    ∀ (e : PyExpr) (v : PyVal), eval e = .ok v → visitedAllowed e = true
  | .constant c, v, h => by
      cases c <;> first | rfl | simp [eval] at h
  | .num n, _, _ => rfl
  | .binOp op l r, v, h => by
      rw [eval] at h
      obtain ⟨lv, hl, h⟩ := exceptBind_ok h
      obtain ⟨rv, hr, h⟩ := exceptBind_ok h
      have hsup : bopAllowed op = true := by
        cases op <;> first
          | rfl
          | simp [applyBinOp] at h
      rw [visitedAllowed, hsup, eval_ok_visitedAllowed l lv hl,
        eval_ok_visitedAllowed r rv hr]
      rfl
  | .unaryOp op e, v, h => by
      rw [eval] at h
      obtain ⟨ev, he, h⟩ := exceptBind_ok h
      have hsup : uopAllowed op = true := by
        cases op <;> first
          | rfl
          | simp [applyUnaryOp] at h
      rw [visitedAllowed, hsup, eval_ok_visitedAllowed e ev he]
      rfl
  | .call (.name id) args kws, v, h => by
      rw [eval] at h
      by_cases hid : id ∈ FUNCTIONS
      · rw [if_pos hid] at h
        obtain ⟨vs, hvs, -⟩ := exceptBind_ok h
        rw [visitedAllowed, evalArgs_ok_visitedAllowed args vs hvs,
          decide_eq_true hid]
        rfl
      · rw [if_neg hid] at h
        cases h
  | .call (.constant _) _ _, v, h => by simp [eval] at h
  | .call (.num _) _ _, v, h => by simp [eval] at h
  | .call (.binOp _ _ _) _ _, v, h => by simp [eval] at h
  | .call (.unaryOp _ _) _ _, v, h => by simp [eval] at h
  | .call (.call _ _ _) _ _, v, h => by simp [eval] at h
  | .call (.attribute _ _) _ _, v, h => by simp [eval] at h
  | .call (.other _) _ _, v, h => by simp [eval] at h
  | .name id, v, h => by simp [eval] at h
  | .attribute e a, v, h => by simp [eval] at h
  | .other s, v, h => by simp [eval] at h

theorem evalArgs_ok_visitedAllowed :
    ∀ (l : List PyExpr) (vs : List PyVal),
      evalArgs l = .ok vs → visitedAllowedList l = true
  | [], _, _ => rfl
  | a :: rest, vs, h => by
      rw [evalArgs] at h
      obtain ⟨av, ha, h⟩ := exceptBind_ok h
      obtain ⟨restv, hrest, -⟩ := exceptBind_ok h
      rw [visitedAllowedList, eval_ok_visitedAllowed a av ha,
        evalArgs_ok_visitedAllowed rest restv hrest]
      rfl

end

end SafeMath

namespace SafeMath

/-- C1 counterexample: the AST of `"abs(-3, x=__import__('os'))"` contains a
call to the non-allow-listed `__import__` (inside a keyword argument of an
allow-listed call), yet `safe_math_eval` raises nothing and returns `3`:
`visit_Call` never visits `node.keywords`, so the claim's "any disallowed
node anywhere raises" is false as stated.  (The smuggled node is skipped,
not executed, so no code runs — but the promised error never happens.) -/
theorem default_deny_counterexample :
    containsDisallowed kwSmuggleExpr = true ∧
      safe_math_eval kwSmuggleExpr = .ok (.int 3) :=
  ⟨by decide, by decide⟩

/-- C1 amended: the evaluator default-denies every node it VISITS:
whenever `safe_math_eval` returns a value, every visited node of the input
AST was allow-listed (numeric literal, unary `+`/`-`, binary
`+ - * / // % **`, or a call of an allow-listed bare name on allow-listed
positional arguments).  Disallowed nodes can survive only inside keyword
arguments of an allow-listed call, which are never visited and never
evaluated. -/
theorem safe_math_eval_default_deny_amended (e : PyExpr) (v : PyVal)
    (h : safe_math_eval e = .ok v) : visitedAllowed e = true := by
  unfold safe_math_eval at h
  cases he : eval e with
  | ok w =>
      exact eval_ok_visitedAllowed e w he
  | error err =>
      rw [he] at h
      cases h

/-- Witness for the amended C1 at the concrete input `"2 + 3 * 4"`. -/
theorem safe_math_eval_default_deny_amended_witness :
    visitedAllowed exprArith = true :=
  safe_math_eval_default_deny_amended exprArith (.int 14) (by decide)

/-- C8: the four concrete evaluator behaviours.  `2 + 3 * 4` evaluates to
the int 14; `sqrt(16)` to the float whose exact value is 4 (i.e. `4.0`); `__import__('os')` raises a
`ValueError` (the `Unsupported function call` wrapped by `safe_math_eval`
into `Invalid expression: …`); `1/0` raises an error carrying the
`ZeroDivisionError` message `division by zero` (wrapped the same way)
rather than crashing — evaluation is total and returns an error value. -/
theorem safe_math_eval_concrete :
    safe_math_eval exprArith = .ok (.int 14) ∧
      safe_math_eval exprSqrt = .ok (.float ⟨4, 1⟩) ∧
      PyFloat.toQ ⟨4, 1⟩ = 4 ∧
      safe_math_eval exprImport =
        .error (.valueError "Invalid expression: Unsupported function call") ∧
      safe_math_eval exprDivZero =
        .error (.valueError "Invalid expression: division by zero") :=
  ⟨by decide, by decide, by norm_num [PyFloat.toQ], by decide, by decide⟩

/-- C10: `visit_Constant` accepts bools (Python's `bool` being a subclass
of `int`): `safe_math_eval("True")` returns `True` itself and
`safe_math_eval("True + True")` returns the int 2. -/
theorem bool_constants_accepted :
    safe_math_eval exprTrue = .ok (.bool true) ∧
      safe_math_eval exprTruePlusTrue = .ok (.int 2) :=
  ⟨by decide, by decide⟩

end SafeMath

namespace ContextAsm

theorem ctxLoop_eq : ∀ (rs : List SearchResult) (parts used : List String)
    (cur maxT : Nat),
    ctxLoop rs parts used cur maxT =
      (parts ++ (acceptedResults rs cur maxT).map render,
        ((acceptedResults rs cur maxT).map SearchResult.title).foldl
          addTitle used)
  | [], parts, used, cur, maxT => by
      simp [ctxLoop, acceptedResults]
  | r :: rest, parts, used, cur, maxT => by
      rw [ctxLoop, acceptedResults]
      split
      · simp
      · rw [ctxLoop_eq rest]
        simp

theorem acceptedResults_prefix : ∀ (rs : List SearchResult) (cur maxT : Nat),
    acceptedResults rs cur maxT <+: rs
  | [], _, _ => List.nil_prefix
  | r :: rest, cur, maxT => by
      rw [acceptedResults]
      split
      · exact List.nil_prefix
      · exact List.cons_prefix_cons.mpr
          ⟨rfl, acceptedResults_prefix rest _ _⟩

theorem acceptedResults_budget : ∀ (rs : List SearchResult) (cur maxT : Nat),
    cur ≤ maxT → cur + estSum (acceptedResults rs cur maxT) ≤ maxT
  | [], cur, maxT, h => by simpa [acceptedResults, estSum] using h
  | r :: rest, cur, maxT, h => by
      rw [acceptedResults]
      split
      · simpa [estSum] using h
      · have hacc : cur + estTokens r ≤ maxT := by omega
        have := acceptedResults_budget rest (cur + estTokens r) maxT hacc
        simp only [estSum, List.map_cons, List.sum_cons] at this ⊢
        omega

/-- C5: the context assembler accepts exactly a prefix of the ranked
search results (which arrive in descending relevance order), each chunk
costed at `len(chunk) // 4` tokens, stopping before the running total
would exceed the budget; the total estimated cost of the accepted chunks
never exceeds the budget; the returned context is those chunks rendered
with their provenance headers and joined by the visible separator; and
zero search hits yield `("", [])`. -/
theorem get_context_for_query_spec (results : List SearchResult)
    (maxTokens : Nat) :
    get_context_for_query [] maxTokens = ("", []) ∧
      acceptedResults results 0 maxTokens <+: results ∧
      estSum (acceptedResults results 0 maxTokens) ≤ maxTokens ∧
      get_context_for_query results maxTokens =
        (String.intercalate "\n\n---\n\n"
            ((acceptedResults results 0 maxTokens).map render),
          ((acceptedResults results 0 maxTokens).map SearchResult.title).foldl
            addTitle []) := by
  refine ⟨rfl, acceptedResults_prefix results 0 maxTokens,
    by simpa using acceptedResults_budget results 0 maxTokens (Nat.zero_le _),
    ?_⟩
  cases results with
  | nil => rfl
  | cons r rest =>
      rw [get_context_for_query, if_neg (by simp), ctxLoop_eq]
      simp

end ContextAsm

namespace Indexing

/-- C4: the claim is right and the code is wrong.  Indexing byte-identical
content twice does keep a single `Document` record, but the second call
does not return the existing document: the dedup branch re-fetches from
the same SQLAlchemy `Result` (`existing.scalar_one()`) after
`existing.scalar_one_or_none()` has already consumed and closed it, so the
second call raises `ResourceClosedError` instead of returning the existing
document unchanged — contradicting the code's own comment
"Document already indexed, return existing". -/
theorem index_document_dedup_raises (hash : String → String)
    (t1 t2 : String) :
    ∃ d db1,
      index_document hash [] "hello" (some t1) [] Option.none =
        .ok (d, db1) ∧
      index_document hash db1 "hello" (some t2) [] Option.none =
        .error .resourceClosed := by
  refine ⟨_, _, rfl, ?_⟩
  rw [index_document, if_neg (by decide)]
  simp [executeSelectByHash, scalarOneOrNone, scalarOne,
    Bind.bind, Except.bind, List.filter]

end Indexing

namespace Router

/-- C6 counterexample: seven overrides of the code task to `"A"` followed
by three consecutive overrides to `"B"`.  The antecedent of the claim
holds — the last three override records are all `B` and `B` appears 3 ≥ 2
times among the most recent 10 — yet the next routing decision selects
`"A"` (the most common override model in the window), not `"B"`. -/
theorem learned_preference_counterexample :
    (cexRun.2.take 3).map (fun l => l.user_override_model) = ["B", "B", "B"] ∧
      2 ≤ countModel ((recentOverrides cexRun.2 .code).map
        (fun l => l.user_override_model)) "B" ∧
      select_model cexRun.1 .code "normal" = "A" ∧
      "A" ≠ "B" :=
  ⟨by decide, by decide, by decide, by decide⟩

theorem countModel_cons_self (models : List String) (m : String) :
    countModel (m :: models) m = countModel models m + 1 := by
  simp [countModel, List.filter_cons]

/-- When the recent-override window for `t` opens with three `B` records
and `B` is strictly most common in it, `_update_preferences` stores `B` as
the learned preference for `t`. -/
theorem update_preferences_sets (A : RouterState) (db' : List UsageLog)
    (t : TaskType) (B : String) (rest : List String)
    (hwin : (recentOverrides db' t).map (fun l => l.user_override_model) =
      B :: B :: B :: rest)
    (hmaj : ∀ m' ∈ B :: B :: B :: rest, m' ≠ B →
      countModel (B :: B :: B :: rest) m' <
        countModel (B :: B :: B :: rest) B) :
    (update_preferences A db' t).user_preferences t = some B := by
  have hlen : 3 ≤ (recentOverrides db' t).length := by
    have := congrArg List.length hwin
    simp only [List.length_map, List.length_cons] at this
    omega
  have hpred : ((B :: B :: B :: rest).all (fun m' =>
      countModel (B :: B :: B :: rest) m' ≤
        countModel (B :: B :: B :: rest) B)) = true := by
    simp only [List.all_eq_true, decide_eq_true_eq]
    intro m' hm'
    by_cases hEq : m' = B
    · subst hEq
      exact le_refl _
    · exact le_of_lt (hmaj m' hm' hEq)
  have hmc : mostCommon (B :: B :: B :: rest) = some B := by
    rw [mostCommon, List.find?_cons, hpred]
  have hcount : 2 ≤ countModel (B :: B :: B :: rest) B := by
    rw [countModel_cons_self, countModel_cons_self, countModel_cons_self]
    omega
  rw [update_preferences, if_pos hlen, hwin]
  simp only [hmc, if_pos hcount]
  simp

/-- C6 amended: (1) a present learned preference wins unconditionally;
(2) otherwise high complexity routes to the quality tier; (3) otherwise the
static task→tier table decides; and (4) after three consecutive overrides
of task `t` to user model `B`, the learned preference becomes `B` — and the
next decision selects `B` — provided `B` is the STRICTLY most common
override model among the most recent 10 override records for `t` (the code
stores the most common model, not the most recent: an older model that is
at least as frequent can win instead, a tie being resolved by Python's
unspecified set-iteration order). -/
theorem routing_priority_amended :
    (∀ (st : RouterState) (t : TaskType) (c m : String),
        st.user_preferences t = some m → select_model st t c = m) ∧
      (∀ (st : RouterState) (t : TaskType),
        st.user_preferences t = Option.none →
        select_model st t "high" = MODELS "quality") ∧
      (∀ (st : RouterState) (t : TaskType) (c : String),
        st.user_preferences t = Option.none → c ≠ "high" →
        select_model st t c = MODELS (taskTier t c)) ∧
      (∀ (st : RouterState) (db : List UsageLog) (t : TaskType)
        (auto B c : String),
        (∀ m' ∈ (recentOverrides (learnThrice st db t auto B).2 t).map
            (fun l => l.user_override_model),
          m' ≠ B →
            countModel ((recentOverrides (learnThrice st db t auto B).2 t).map
              (fun l => l.user_override_model)) m' <
              countModel ((recentOverrides (learnThrice st db t auto B).2 t).map
                (fun l => l.user_override_model)) B) →
        select_model (learnThrice st db t auto B).1 t c = B) := by
  refine ⟨?_, ?_, ?_, ?_⟩
  · intro st t c m h
    rw [select_model, h]
  · intro st t h
    rw [select_model, h]
    rfl
  · intro st t c h hc
    rw [select_model, h]
    simp [hc]
  · intro st db t auto B c hmaj
    have hdb : (learnThrice st db t auto B).2 =
        ⟨t.value, auto, B, true⟩ :: ⟨t.value, auto, B, true⟩ ::
          ⟨t.value, auto, B, true⟩ :: db := rfl
    have hfl : (⟨t.value, auto, B, true⟩ :: ⟨t.value, auto, B, true⟩ ::
        ⟨t.value, auto, B, true⟩ :: db).filter
          (fun l => l.task_type == t.value && l.was_override) =
        ⟨t.value, auto, B, true⟩ :: ⟨t.value, auto, B, true⟩ ::
          ⟨t.value, auto, B, true⟩ ::
          db.filter (fun l => l.task_type == t.value && l.was_override) := by
      simp [List.filter_cons]
    have hro : recentOverrides (learnThrice st db t auto B).2 t =
        ⟨t.value, auto, B, true⟩ :: ⟨t.value, auto, B, true⟩ ::
          ⟨t.value, auto, B, true⟩ ::
          ((db.filter (fun l =>
            l.task_type == t.value && l.was_override)).take 7) := by
      rw [recentOverrides, hdb, hfl]
      rfl
    have hwin : (recentOverrides (learnThrice st db t auto B).2 t).map
        (fun l => l.user_override_model) =
        B :: B :: B :: ((db.filter (fun l =>
          l.task_type == t.value && l.was_override)).take 7).map
            (fun l => l.user_override_model) := by
      rw [hro]
      simp
    rw [hwin] at hmaj
    have hst : (learnThrice st db t auto B).1 = update_preferences
        (learn_from_override
          (learn_from_override st db t auto B).1
          (learn_from_override st db t auto B).2 t auto B).1
        (learnThrice st db t auto B).2 t := rfl
    have hpref : (learnThrice st db t auto B).1.user_preferences t =
        some B := by
      rw [hst]
      exact update_preferences_sets _ _ t B _ hwin hmaj
    rw [select_model, hpref]

/-- Witness for the amended C6: a fresh router and empty usage log, three
overrides of the code task to `"y"` — the strict-majority hypothesis holds
(the window is `["y","y","y"]`) and the next decision selects `"y"` — plus
concrete instances of the three priority rules. -/
theorem routing_priority_amended_witness :
    select_model ⟨fun _ => some "m"⟩ .code "high" = "m" ∧
      select_model freshState .code "high" = "llama3.1:70b-q4" ∧
      select_model freshState .code "normal" = "llama3.1:8b" ∧
      select_model (learnThrice freshState [] .code "x" "y").1 .code
        "normal" = "y" :=
  ⟨routing_priority_amended.1 ⟨fun _ => some "m"⟩ .code "high" "m" rfl,
    routing_priority_amended.2.1 freshState .code rfl,
    routing_priority_amended.2.2.1 freshState .code "normal" rfl (by decide),
    routing_priority_amended.2.2.2 freshState [] .code "x" "y" "normal"
      (by decide)⟩

end Router

namespace Classifier

theorem argmaxFirst_ge (f : Router.TaskType → Nat) :
    ∀ (l : List Router.TaskType) (b : Router.TaskType),
      f b ≤ f (argmaxFirst f l b)
  | [], _ => le_refl _
  | t :: rest, b => by
      rw [argmaxFirst]
      split
      · exact le_trans (le_of_lt (by omega)) (argmaxFirst_ge f rest t)
      · exact argmaxFirst_ge f rest b

theorem argmaxFirst_ge_mem (f : Router.TaskType → Nat) :
    ∀ (l : List Router.TaskType) (b : Router.TaskType)
      (t : Router.TaskType), t ∈ l → f t ≤ f (argmaxFirst f l b)
  | t' :: rest, b, t, ht => by
      rw [argmaxFirst]
      rcases List.mem_cons.mp ht with rfl | ht
      · split
        · exact argmaxFirst_ge f rest t
        · exact le_trans (by omega) (argmaxFirst_ge f rest b)
      · exact argmaxFirst_ge_mem f rest _ t ht

theorem argmaxFirst_first (f : Router.TaskType → Nat) :
    ∀ (l : List Router.TaskType) (b : Router.TaskType),
      (b :: l).find? (fun t => decide (f (argmaxFirst f l b) ≤ f t)) =
        some (argmaxFirst f l b)
  | [], b => by simp [argmaxFirst]
  | t :: ts, b => by
      rw [argmaxFirst]
      by_cases hbt : f t > f b
      · rw [if_pos hbt]
        have hge : f t ≤ f (argmaxFirst f ts t) := argmaxFirst_ge f ts t
        have hfb : decide (f (argmaxFirst f ts t) ≤ f b) = false := by
          simp only [decide_eq_false_iff_not]
          omega
        simp only [List.find?_cons, hfb]
        exact argmaxFirst_first f ts t
      · rw [if_neg hbt]
        have ih := argmaxFirst_first f ts b
        by_cases hrb : f (argmaxFirst f ts b) ≤ f b
        · have htr : decide (f (argmaxFirst f ts b) ≤ f b) = true :=
            decide_eq_true hrb
          simp only [List.find?_cons, htr] at ih ⊢
          exact ih
        · have hfb : decide (f (argmaxFirst f ts b) ≤ f b) = false := by
            simp [hrb]
          have hft : decide (f (argmaxFirst f ts b) ≤ f t) = false := by
            simp only [decide_eq_false_iff_not]
            omega
          simp only [List.find?_cons, hfb] at ih
          simp only [List.find?_cons, hfb, hft]
          exact ih

theorem score_le_bestTask (q : List Char) (t : Router.TaskType) :
    score q t ≤ score q (bestTask q) := by
  cases t with
  | chat => exact argmaxFirst_ge (fun t => score q t) _ .chat
  | question => exact argmaxFirst_ge_mem (fun t => score q t) _ .chat _ (by decide)
  | document_analysis =>
      exact argmaxFirst_ge_mem (fun t => score q t) _ .chat _ (by decide)
  | rag_query => exact argmaxFirst_ge_mem (fun t => score q t) _ .chat _ (by decide)
  | writing => exact argmaxFirst_ge_mem (fun t => score q t) _ .chat _ (by decide)
  | creative => exact argmaxFirst_ge_mem (fun t => score q t) _ .chat _ (by decide)
  | email => exact argmaxFirst_ge_mem (fun t => score q t) _ .chat _ (by decide)
  | resume => exact argmaxFirst_ge_mem (fun t => score q t) _ .chat _ (by decide)
  | code => exact argmaxFirst_ge_mem (fun t => score q t) _ .chat _ (by decide)
  | summary => exact argmaxFirst_ge_mem (fun t => score q t) _ .chat _ (by decide)

/-- C3 counterexample: `"email def"` matches exactly one EMAIL pattern and
one CODE pattern (every other label scores 0, so 1 is the shared maximum),
and the classifier returns EMAIL — the first label in `TaskType` insertion
order among the tied — not the general-chat default the claim requires on
ties. -/
theorem classify_tie_counterexample :
    score (lowerQ "email def") .email = 1 ∧
      score (lowerQ "email def") .code = 1 ∧
      (∀ t ∈ Router.taskOrder, score (lowerQ "email def") t ≤ 1) ∧
      classifyTask "email def" = .email ∧
      Router.TaskType.email ≠ .chat :=
  ⟨by decide, by decide, by decide, by decide, by decide⟩

/-- C3 amended: classification counts regex pattern matches per label on
the lower-cased query; all-zero scores resolve to the general-chat label;
otherwise the winner attains the maximal score, and among labels attaining
it the FIRST in `TaskType` definition (= scores-dict insertion) order wins
— a deterministic tie-break, but not the general-chat default (CHAT has no
patterns, so it never wins a nonzero tie).  The query
`"fix this python function"` strictly wins on the code label. -/
theorem classify_spec :
    (∀ query : String, (∀ t, score (lowerQ query) t = 0) →
        classifyTask query = .chat) ∧
      (∀ query : String, (∃ t, 0 < score (lowerQ query) t) →
        (∀ t ∈ Router.taskOrder,
          score (lowerQ query) t ≤ score (lowerQ query) (classifyTask query)) ∧
        Router.taskOrder.find? (fun t =>
          decide (score (lowerQ query) (classifyTask query) ≤
            score (lowerQ query) t)) = some (classifyTask query)) ∧
      classifyTask "fix this python function" = .code := by
  refine ⟨?_, ?_, by decide⟩
  · intro query h
    rw [classifyTask, if_pos (h _)]
  · intro query hpos
    obtain ⟨t0, ht0⟩ := hpos
    have hbest : 0 < score (lowerQ query) (bestTask (lowerQ query)) :=
      lt_of_lt_of_le ht0 (score_le_bestTask _ t0)
    have hcl : classifyTask query = bestTask (lowerQ query) := by
      rw [classifyTask, if_neg (by omega)]
    constructor
    · intro t _
      rw [hcl]
      exact score_le_bestTask _ t
    · rw [hcl]
      exact argmaxFirst_first (fun t => score (lowerQ query) t) _ .chat

/-- Witness for the amended C3: `"zzz"` scores 0 everywhere and classifies
as CHAT; `"fix this python function"` has a positive score, so the
returned label (CODE) attains the maximum over all labels. -/
theorem classify_spec_witness :
    classifyTask "zzz" = .chat ∧
      (∀ t ∈ Router.taskOrder,
        score (lowerQ "fix this python function") t ≤
          score (lowerQ "fix this python function")
            (classifyTask "fix this python function")) :=
  ⟨classify_spec.1 "zzz" (by decide),
    (classify_spec.2.1 "fix this python function"
      ⟨.code, by decide⟩).1⟩

end Classifier

namespace Agent

theorem countIterations_append (a b : List AgentEvent) :
    countIterations (a ++ b) = countIterations a + countIterations b := by
  simp [countIterations, List.filter_append]

theorem countIterations_toolEvents (toolExec : Option Json → Json → String) :
    ∀ calls : List Json, countIterations (toolEvents toolExec calls) = 0
  | [] => rfl
  | tc :: rest => by
      have ih := countIterations_toolEvents toolExec rest
      simp only [toolEvents, List.foldr_cons] at ih ⊢
      simpa [countIterations, List.filter, isContentEv] using ih

theorem runAgentLoop_ne_nil (oracle : List Msg → String)
    (toolExec : Option Json → Json → String) (maxIter iter : Nat)
    (messages : List Msg) :
    runAgentLoop oracle toolExec maxIter iter messages ≠ [] := by
  rw [runAgentLoop]
  split
  · split
    · exact List.cons_ne_nil _ _
    · exact List.cons_ne_nil _ _
  · exact List.cons_ne_nil _ _

theorem countIterations_cons_content (s : String) (n : Nat)
    (l : List AgentEvent) :
    countIterations (.content s n :: l) = countIterations l + 1 := by
  simp [countIterations, List.filter, isContentEv]

theorem countIterations_runAgentLoop (oracle : List Msg → String)
    (toolExec : Option Json → Json → String) (maxIter iter : Nat)
    (messages : List Msg) :
    countIterations (runAgentLoop oracle toolExec maxIter iter messages) ≤
      maxIter - iter := by
  rw [runAgentLoop]
  split
  · split
    · rw [show countIterations [AgentEvent.content (oracle messages)
          (iter + 1), AgentEvent.done (oracle messages)] = 1 from rfl]
      omega
    · have ih := countIterations_runAgentLoop oracle toolExec maxIter
        (iter + 1) (messages ++ ⟨"assistant", oracle messages⟩ ::
          toolMsgs toolExec (extract_tool_calls (oracle messages).toList))
      have h0 := countIterations_toolEvents toolExec
        (extract_tool_calls (oracle messages).toList)
      rw [countIterations_cons_content, countIterations_append, h0]
      omega
  · exact Nat.zero_le _
  termination_by maxIter - iter

theorem runAgentLoop_last_maxIterations (oracle : List Msg → String)
    (toolExec : Option Json → Json → String)
    (h : ∀ ms, extract_tool_calls (oracle ms).toList ≠ [])
    (maxIter iter : Nat) (messages : List Msg) :
    (runAgentLoop oracle toolExec maxIter iter messages).getLast? =
      some .maxIterations := by
  rw [runAgentLoop]
  split
  · split
    case isTrue hemp =>
      exact absurd (List.isEmpty_iff.mp hemp) (h messages)
    case isFalse hemp =>
      rw [show (AgentEvent.content (oracle messages) (iter + 1) ::
          (toolEvents toolExec (extract_tool_calls (oracle messages).toList) ++
            runAgentLoop oracle toolExec maxIter (iter + 1)
              (messages ++ ⟨"assistant", oracle messages⟩ ::
                toolMsgs toolExec
                  (extract_tool_calls (oracle messages).toList)))) =
          ((AgentEvent.content (oracle messages) (iter + 1) ::
            toolEvents toolExec (extract_tool_calls (oracle messages).toList)) ++
            runAgentLoop oracle toolExec maxIter (iter + 1)
              (messages ++ ⟨"assistant", oracle messages⟩ ::
                toolMsgs toolExec
                  (extract_tool_calls (oracle messages).toList))) from by simp]
      rw [List.getLast?_append_of_ne_nil _
        (runAgentLoop_ne_nil oracle toolExec maxIter (iter + 1) _)]
      exact runAgentLoop_last_maxIterations oracle toolExec h maxIter
        (iter + 1) _
  · rfl
  termination_by maxIter - iter

/-- C7: the agent loop's temporal contract.  (1) Any iteration whose model
response yields zero valid tool-call blocks — in particular when every
candidate block is malformed and silently skipped by the extractor —
transitions directly to Done, yielding the full response as the final
answer.  (2) The loop never runs more than `max_iterations` iterations.
(3) If every response still carries tool calls when the cap is reached,
the trace ends with the MaxIterationsReached event — the loop returns
normally rather than raising. -/
theorem run_agent_spec :
    (∀ (oracle : List Msg → String)
      (toolExec : Option Json → Json → String) (maxIter iter : Nat)
      (messages : List Msg),
      iter < maxIter →
      extract_tool_calls (oracle messages).toList = [] →
      runAgentLoop oracle toolExec maxIter iter messages =
        [.content (oracle messages) (iter + 1), .done (oracle messages)]) ∧
      (∀ (oracle : List Msg → String)
        (toolExec : Option Json → Json → String) (message : String)
        (maxIter : Nat),
        countIterations (run_agent oracle toolExec message maxIter) ≤
          maxIter) ∧
      (∀ (oracle : List Msg → String)
        (toolExec : Option Json → Json → String) (message : String)
        (maxIter : Nat),
        (∀ ms, extract_tool_calls (oracle ms).toList ≠ []) →
        (run_agent oracle toolExec message maxIter).getLast? =
          some .maxIterations) := by
  refine ⟨?_, ?_, ?_⟩
  · intro oracle toolExec maxIter iter messages hlt hext
    rw [runAgentLoop, if_pos hlt, hext]
    rfl
  · intro oracle toolExec message maxIter
    have := countIterations_runAgentLoop oracle toolExec maxIter 0
      [⟨"user", message⟩]
    simpa [run_agent] using this
  · intro oracle toolExec message maxIter h
    exact runAgentLoop_last_maxIterations oracle toolExec h maxIter 0 _

/-- Witness for C7: a call-free response finishes with Done in one
iteration; an always-tool-calling oracle runs exactly up to the cap of 3
iterations and the trace ends with MaxIterationsReached. -/
theorem run_agent_spec_witness :
    runAgentLoop (fun _ => "hello") (fun _ _ => "r") 1 0 [] =
      [.content "hello" 1, .done "hello"] ∧
      countIterations (run_agent (fun _ => toolResponse) (fun _ _ => "r")
        "hi" 3) ≤ 3 ∧
      (run_agent (fun _ => toolResponse) (fun _ _ => "r") "hi" 3).getLast? =
        some .maxIterations := by
  refine ⟨run_agent_spec.1 (fun _ => "hello") (fun _ _ => "r") 1 0 []
      (by omega) rfl,
    run_agent_spec.2.1 (fun _ => toolResponse) (fun _ _ => "r") "hi" 3,
    run_agent_spec.2.2 (fun _ => toolResponse) (fun _ _ => "r") "hi" 3 ?_⟩
  intro ms h
  have hlen : (extract_tool_calls toolResponse.toList).length = 2 := rfl
  rw [h] at hlen
  exact absurd hlen (by decide)
